import Mathlib

/-!
# Garage monitor: vehicle registry, scoring and bulk load

A shallow embedding of `Diagnostic.{h,cpp}`, `Car.{h,cpp}` and
`GarageMonitor.{h,cpp}`.

Modelling conventions.

* A `double` is the rational it denotes (`ℚ`), and every arithmetic operation of
  the source is rounded to the nearest double (`binary64`, `dadd`, `dsub`,
  `dmul`, `ddiv`); infinities and NaN are outside the model.
* `std::string` is `String`; `std::map<std::string, Car>` is an association
  list kept in strictly increasing key order (`mapFind`, `mapEmplace`,
  `mapModify` are `find`, `emplace` and the update through the iterator).
* The mutex is not modelled: every member function is one atomic step on the
  registry value, so a run of the program is a sequence of such steps.
* `strtod` (libc) and the `std::fixed << std::setprecision(2)` rendering are
  parameters of the functions that call them; `strtodModel` is a model of
  `strtod` on decimal text, used where a concrete input is evaluated.
* The engine `std::mt19937` of the workload generator is a parameter (`Engine`);
  `std::uniform_real_distribution` is modelled on it (`uniformReal`);
  `simulateRealTimeUpdates` is its sequential mode.
-/

namespace GarageSpec

/-! ## Binary64 arithmetic

A `double` is modelled by the rational it denotes. Every arithmetic operation of the
source is the exact operation followed by rounding to the nearest double, a tie going to
the double with an even significand (the default rounding of IEEE 754). Infinities and
NaN have no rational value: an operation whose result rounds beyond the largest double
is outside the model. -/

/-- The position of the leading bit of `n` (0 for `n ≤ 1`), by halving at most `fuel`
times. -/
def log2Fuel : Nat → Nat → Nat
  | 0, _ => 0
  | fuel + 1, n => if 2 ≤ n then log2Fuel fuel (n / 2) + 1 else 0

/-- The binary exponent of a positive rational: the integer `e` with
`2 ^ e ≤ x < 2 ^ (e + 1)`. -/
def ilog2 (x : ℚ) : Int :=
  let e0 : Int := (log2Fuel x.num.toNat x.num.toNat : Int) - (log2Fuel x.den x.den : Int)
  if (2 : ℚ) ^ e0 ≤ x then e0 else e0 - 1

/-- Rounding of a rational to the nearest integer, a tie going to the even one. -/
def roundEven (q : ℚ) : Int :=
  let f := ⌊q⌋
  let r := q - (f : ℚ)
  if r < 1 / 2 then f
  else if 1 / 2 < r then f + 1
  else if f % 2 = 0 then f else f + 1

/-- The spacing of the doubles around `x`: `2 ^ (e - 52)` for the binary exponent `e` of
`x` (53 significant bits), and the spacing `2 ^ (-1074)` of the subnormal doubles below
the smallest normal exponent `-1022`. -/
def ulp (x : ℚ) : ℚ :=
  (2 : ℚ) ^ (max (ilog2 |x|) (-1022) - 52)

/-- The double nearest to `x`, ties to even. -/
def binary64 (x : ℚ) : ℚ :=
  if x = 0 then 0 else (roundEven (x / ulp x) : ℚ) * ulp x

/-- The sum of two doubles, `x + y` in the source. -/
def dadd (x y : ℚ) : ℚ := binary64 (x + y)

/-- The difference of two doubles, `x - y` in the source. -/
def dsub (x y : ℚ) : ℚ := binary64 (x - y)

/-- The product of two doubles, `x * y` in the source. -/
def dmul (x y : ℚ) : ℚ := binary64 (x * y)

/-- The quotient of two doubles, `x / y` in the source. -/
def ddiv (x y : ℚ) : ℚ := binary64 (x / y)

/-! ## Diagnostic.h / Diagnostic.cpp -/

/-- The sensor kinds, `enum class DiagnosticType`. -/
inductive DiagnosticType where
  | RPM
  | EngineLoad
  | CoolantTemp
  | Unknown
  deriving DecidableEq, Repr

/-- The class `Diagnostic`: vehicle id, kind and value. -/
structure Diagnostic where
  id_ : String
  type_ : DiagnosticType
  value_ : ℚ
  deriving DecidableEq, Repr

/-- Getter `Diagnostic::getId`. -/
def Diagnostic.getId (d : Diagnostic) : String := d.id_

/-- Getter `Diagnostic::getType`. -/
def Diagnostic.getType (d : Diagnostic) : DiagnosticType := d.type_

/-- Getter `Diagnostic::getValue`. -/
def Diagnostic.getValue (d : Diagnostic) : ℚ := d.value_

/-- The predicate `std::isspace` on one byte in the "C" locale: space, `\t`, `\n`, `\v`,
`\f`, `\r`. -/
def isspace (c : Char) : Bool :=
  c.toNat == 32 || (9 ≤ c.toNat && c.toNat ≤ 13)

/-- The static helper `trim` (the same text in Diagnostic.cpp and GarageMonitor.cpp):
the substring between the first and the last non-space character. -/
def trim (s : String) : String :=
  ⟨((s.data.dropWhile isspace).reverse.dropWhile isspace).reverse⟩

/-- The static helper `upper`: `std::toupper` on every character. -/
def upper (s : String) : String :=
  ⟨s.data.map Char.toUpper⟩

/-- The function `diagnosticTypeFromString`. -/
def diagnosticTypeFromString (sIn : String) : DiagnosticType :=
  let s := upper (trim sIn)
  if s = "RPM" then DiagnosticType.RPM
  else if s = "ENGINELOAD" then DiagnosticType.EngineLoad
  else if s = "COOLANTTEMP" then DiagnosticType.CoolantTemp
  else DiagnosticType.Unknown

/-- The function `diagnosticTypeToString`. -/
def diagnosticTypeToString (t : DiagnosticType) : String :=
  match t with
  | DiagnosticType.RPM => "RPM"
  | DiagnosticType.EngineLoad => "EngineLoad"
  | DiagnosticType.CoolantTemp => "CoolantTemp"
  | DiagnosticType.Unknown => "Unknown"

/-! ## Car.h / Car.cpp -/

/-- The class `Car`: its id and the three optional readings. -/
structure Car where
  id_ : String
  rpm_ : Option ℚ
  engineLoad_ : Option ℚ
  coolantTemp_ : Option ℚ
  deriving DecidableEq, Repr

/-- The constructor `Car::Car(id)`: no reading yet. -/
def Car.new (id : String) : Car :=
  { id_ := id, rpm_ := none, engineLoad_ := none, coolantTemp_ := none }

/-- Getter `Car::getId`. -/
def Car.getId (c : Car) : String := c.id_

/-- Getter `Car::rpm`. -/
def Car.rpm (c : Car) : Option ℚ := c.rpm_

/-- Getter `Car::engineLoad`. -/
def Car.engineLoad (c : Car) : Option ℚ := c.engineLoad_

/-- Getter `Car::coolantTemp`. -/
def Car.coolantTemp (c : Car) : Option ℚ := c.coolantTemp_

/-- The method `Car::addDiagnostic`: the switch on the kind, `default: break`. -/
def Car.addDiagnostic (c : Car) (d : Diagnostic) : Car :=
  match d.getType with
  | DiagnosticType.RPM => { c with rpm_ := some d.getValue }
  | DiagnosticType.EngineLoad => { c with engineLoad_ := some d.getValue }
  | DiagnosticType.CoolantTemp => { c with coolantTemp_ := some d.getValue }
  | DiagnosticType.Unknown => c

/-- The method `Car::hasAllRequired`. -/
def Car.hasAllRequired (c : Car) : Bool :=
  c.rpm_.isSome && c.engineLoad_.isSome && c.coolantTemp_.isSome

/-- The method `Car::computePerformanceScore`. The three dereferences happen after the
`hasAllRequired` guard; the last branch of the match is the dereference of an empty
optional, which the guard excludes. The expression
`100.0 - (rpmVal / 100.0 + loadVal * 0.5 + (tempVal - 90.0) * 2.0)` is evaluated in
binary64, operation by operation, in the order of the C++ grammar. -/
def Car.computePerformanceScore (c : Car) : Option ℚ :=
  if !c.hasAllRequired then none
  else
    match c.rpm_, c.engineLoad_, c.coolantTemp_ with
    | some rpmVal, some loadVal, some tempVal =>
      some (dsub 100.0
        (dadd (dadd (ddiv rpmVal 100.0) (dmul loadVal 0.5)) (dmul (dsub tempVal 90.0) 2.0)))
    | _, _, _ => none

/-! ## GarageMonitor.h / GarageMonitor.cpp -/

/-- The struct `CarStatus` with its default member initialisers. -/
structure CarStatus where
  hasAll : Bool := false
  score : Option ℚ := none
  alert : String := ""
  deriving DecidableEq, Repr

/-- The lookup `std::map::find`: the car stored under `k`, if any. -/
def mapFind : List (String × Car) → String → Option Car
  | [], _ => none
  | (k', c) :: rest, k => if k' = k then some c else mapFind rest k

/-- The insertion `std::map::emplace`: puts `(k, c)` at its place in key order, and
leaves the map alone when the key is already there. -/
def mapEmplace : List (String × Car) → String → Car → List (String × Car)
  | [], k, c => [(k, c)]
  | (k', c') :: rest, k, c =>
    if k < k' then (k, c) :: (k', c') :: rest
    else if k' < k then (k', c') :: mapEmplace rest k c
    else (k', c') :: rest

/-- The update `it->second.f()` through the iterator of the entry with key `k`. -/
def mapModify : List (String × Car) → String → (Car → Car) → List (String × Car)
  | [], _, _ => []
  | (k', c) :: rest, k, f =>
    if k' = k then (k', f c) :: rest else (k', c) :: mapModify rest k f

/-- The class `GarageMonitor`: the member `cars_` (the mutex carries no data). -/
structure GarageMonitor where
  cars_ : List (String × Car)
  deriving DecidableEq, Repr

/-- A default-constructed `GarageMonitor`: the empty registry. -/
def GarageMonitor.empty : GarageMonitor := { cars_ := [] }

/-- The invariant of `std::map`: keys strictly increasing (hence unique). -/
def GarageMonitor.WF (m : GarageMonitor) : Prop :=
  m.cars_.Pairwise (fun a b => a.1 < b.1)

/-- The method `GarageMonitor::addDiagnostic`: find, emplace when absent, then update
the entry. -/
def GarageMonitor.addDiagnostic (m : GarageMonitor) (carId : String)
    (type : DiagnosticType) (value : ℚ) : GarageMonitor :=
  let cars :=
    match mapFind m.cars_ carId with
    | none => mapEmplace m.cars_ carId (Car.new carId)
    | some _ => m.cars_
  { cars_ := mapModify cars carId
      (fun car => car.addDiagnostic { id_ := carId, type_ := type, value_ := value }) }

/-- The method `GarageMonitor::statusOfUnlocked`. -/
def GarageMonitor.statusOfUnlocked (car : Car) : CarStatus :=
  let hasAll := car.hasAllRequired
  if !hasAll then
    { hasAll := hasAll, score := none, alert := "Sensor Failure Detected" }
  else
    let score := car.computePerformanceScore
    match score with
    | some s =>
      if s < 40.0 then { hasAll := hasAll, score := score, alert := "Severe Engine Stress" }
      else { hasAll := hasAll, score := score, alert := "" }
    | none => { hasAll := hasAll, score := score, alert := "" }

/-- The method `GarageMonitor::statusOf`: `CarStatus{}` for an id that is not in the
map. -/
def GarageMonitor.statusOf (m : GarageMonitor) (carId : String) : CarStatus :=
  match mapFind m.cars_ carId with
  | none => {}
  | some car => GarageMonitor.statusOfUnlocked car

/-- The value of a 32-bit `int` after an arithmetic result `z`: `z` itself when it fits,
and its two's-complement wrap otherwise (signed overflow is undefined behaviour in C++;
the wrap is what the usual targets produce). -/
def wrapInt32 (z : Int) : Int :=
  (z + 2 ^ 31) % 2 ^ 32 - 2 ^ 31

/-- One round of the loop of `averageScore` on the pair `(sum, n)`: `sum += *s` in
binary64 and `++n` on the `int` counter. -/
def GarageMonitor.averageStep (acc : ℚ × Int) (kv : String × Car) : ℚ × Int :=
  if kv.2.hasAllRequired then
    match kv.2.computePerformanceScore with
    | some s => (dadd acc.1 s, wrapInt32 (acc.2 + 1))
    | none => acc
  else acc

/-- The method `GarageMonitor::averageScore`: one pass over the map in key order, then
`sum / n` in binary64 (the conversion of the `int` to `double` is exact). -/
def GarageMonitor.averageScore (m : GarageMonitor) : Option ℚ :=
  let acc := m.cars_.foldl GarageMonitor.averageStep (0, 0)
  if acc.2 = 0 then none else some (ddiv acc.1 (acc.2 : ℚ))

/-- The method `GarageMonitor::hasCar`. -/
def GarageMonitor.hasCar (m : GarageMonitor) (id : String) : Bool :=
  (mapFind m.cars_ id).isSome

/-- The output of `printStatus`, one line per car in key order. `fixed2` is the
`std::fixed << std::setprecision(2)` rendering of a double. `none` stands for the
dereference `*st.score` of an empty optional. -/
def GarageMonitor.printStatus (fixed2 : ℚ → String) (m : GarageMonitor) : Option String :=
  m.cars_.foldl
    (fun out kv =>
      match out with
      | none => none
      | some text =>
        let st := GarageMonitor.statusOfUnlocked kv.2
        let text := text ++ "Car: " ++ kv.1
        if !st.hasAll then some (text ++ " | Status: " ++ st.alert ++ "\n")
        else
          match st.score with
          | none => none
          | some sc =>
            let text := text ++ " | Score: " ++ fixed2 sc
            let text := if st.alert ≠ "" then text ++ " | Alert: " ++ st.alert else text
            some (text ++ "\n"))
    (some "")

/-! ### Bulk load -/

/-- What one call `std::strtod(valueStr.c_str(), &endp)` reports: the value, the number
of characters consumed (`endp - valueStr.c_str()`) and whether `errno` is `ERANGE`. -/
structure StrtodResult where
  val : ℚ
  consumed : Nat
  erange : Bool
  deriving DecidableEq, Repr

/-- The successive results of `std::getline(in, line)`: the input cut at every `\n`; a
last line without `\n` is read, and nothing follows a final `\n`. -/
def splitLines : List Char → List (List Char)
  | [] => []
  | c :: cs =>
    if c = Char.ofNat 10 then [] :: splitLines cs
    else
      match splitLines cs with
      | [] => [[c]]
      | l :: ls => (c :: l) :: ls

/-- One call `std::getline(ss, field, delim)` on a string stream whose unread characters
are `rest`: it fails when nothing is left, and otherwise reads up to the delimiter (or
the end) and discards the delimiter. -/
def getline (rest : List Char) (delim : Char) : Option (String × List Char) :=
  match rest with
  | [] => none
  | _ :: _ => some (⟨rest.takeWhile (fun c => c != delim)⟩,
      (rest.dropWhile (fun c => c != delim)).drop 1)

/-- How the body of the loop of `loadCSV` leaves one line: by one of the two first
`continue`s, by a `continue` after `errors.push_back`, or by reaching `addDiagnostic`. -/
inductive LineOutcome where
  | skip
  | error (msg : String)
  | row (carId : String) (type : DiagnosticType) (val : ℚ)
  deriving DecidableEq, Repr

/-- The body of the loop of `loadCSV` for the line `line` numbered `lineNo`, up to its
effect. -/
def parseLine (strtod : String → StrtodResult) (lineNo : Nat) (line : String) :
    LineOutcome :=
  let raw := trim line
  if raw.data.isEmpty then LineOutcome.skip
  else if raw.data.head? = some (Char.ofNat 35) then LineOutcome.skip
  else
    match getline raw.data (Char.ofNat 44) with
    | none => LineOutcome.error ("Line " ++ toString lineNo ++ ": missing CarId")
    | some (carId, rest1) =>
      match getline rest1 (Char.ofNat 44) with
      | none => LineOutcome.error ("Line " ++ toString lineNo ++ ": missing Type")
      | some (typeStr, rest2) =>
        let valueStr : String :=
          match getline rest2 (Char.ofNat 44) with
          | none => ""
          | some (v, _) => v
        let carId := trim carId
        let typeStr := trim typeStr
        let valueStr := trim valueStr
        let type := diagnosticTypeFromString typeStr
        if type = DiagnosticType.Unknown then
          LineOutcome.error
            ("Line " ++ toString lineNo ++ ": unknown Type " ++ "\x27" ++ typeStr ++ "\x27")
        else
          let r := strtod valueStr
          if valueStr.data.isEmpty || r.consumed == 0 || r.erange then
            LineOutcome.error
              ("Line " ++ toString lineNo ++ ": invalid Value " ++ "\x27" ++ valueStr ++ "\x27")
          else LineOutcome.row carId type r.val

/-- The variables of `loadCSV` while it runs: the registry, the caller's error list,
`count` and `lineNo`. -/
structure LoadState where
  gm : GarageMonitor
  errors : List String
  count : Nat
  lineNo : Nat
  deriving DecidableEq, Repr

/-- One round of the loop of `loadCSV`. -/
def loadCSVLine (strtod : String → StrtodResult) (st : LoadState) (line : List Char) :
    LoadState :=
  let lineNo := st.lineNo + 1
  match parseLine strtod lineNo ⟨line⟩ with
  | LineOutcome.skip => { st with lineNo := lineNo }
  | LineOutcome.error msg => { st with lineNo := lineNo, errors := st.errors ++ [msg] }
  | LineOutcome.row carId type val =>
    { st with lineNo := lineNo, gm := st.gm.addDiagnostic carId type val,
              count := st.count + 1 }

/-- What a call of `loadCSV` leaves: the registry, the error list, and the returned
count or the exception. -/
structure LoadResult where
  gm : GarageMonitor
  errors : List String
  result : Except String Nat

/-- The method `GarageMonitor::loadCSV`: throws when no row was ingested. -/
def GarageMonitor.loadCSV (strtod : String → StrtodResult) (m : GarageMonitor)
    (input : String) (errors : List String) : LoadResult :=
  let st := (splitLines input.data).foldl (loadCSVLine strtod)
    { gm := m, errors := errors, count := 0, lineNo := 0 }
  if st.count = 0 then
    { gm := st.gm, errors := st.errors,
      result := Except.error "Empty CSV: no valid data rows." }
  else { gm := st.gm, errors := st.errors, result := Except.ok st.count }

/-! ### A model of `strtod` on decimal text -/

/-- Reads a run of decimal digits: the number read so far, the count of digits read and
the unread characters. -/
def scanDigits : List Char → Nat → Nat → Nat × Nat × List Char
  | [], acc, n => (acc, n, [])
  | c :: cs, acc, n =>
    if c.isDigit then scanDigits cs (acc * 10 + (c.toNat - 48)) (n + 1)
    else (acc, n, c :: cs)

/-- Reads an optional sign: whether it is a minus, the count of characters read (0 or 1)
and the unread characters. -/
def scanSign : List Char → Bool × Nat × List Char
  | [] => (false, 0, [])
  | c :: cs =>
    if c = Char.ofNat 45 then (true, 1, cs)
    else if c = Char.ofNat 43 then (false, 1, cs)
    else (false, 0, c :: cs)

/-- The exponent part after the mantissa: `e` or `E`, an optional sign and at least one
digit; the exponent and the count of characters read (0 when there is no exponent
part). -/
def scanExponent : List Char → Int × Nat
  | [] => (0, 0)
  | c :: cs =>
    if c = Char.ofNat 101 ∨ c = Char.ofNat 69 then
      let s := scanSign cs
      let d := scanDigits s.2.2 0 0
      if d.2.1 = 0 then (0, 0)
      else ((if s.1 then -(d.1 : Int) else (d.1 : Int)), 1 + s.2.1 + d.2.1)
    else (0, 0)

/-- The rational `mant * 10 ^ k`. -/
def scale10 (mant : ℚ) (k : Int) : ℚ :=
  if 0 ≤ k then mant * (10 : ℚ) ^ k.toNat else mant / (10 : ℚ) ^ (-k).toNat

/-- A model of the library function `strtod` (C11 7.22.1.3) on the decimal forms of its
subject sequence: leading white space, an optional sign, decimal digits with an optional
radix point (at least one digit), and an optional exponent part. It reads the longest
such prefix, reports no conversion (`consumed = 0`) when there is none, gives the
double nearest to the value, and reports `ERANGE` for a magnitude that rounds beyond the
largest double (the value is then infinite in the library and has no meaning here). The
hexadecimal, `INF` and `NAN` forms, and `ERANGE` on underflow, which the C standard
leaves to the implementation, are outside the model. -/
def strtodModel (s : String) : StrtodResult :=
  let l1 := s.data.dropWhile isspace
  let ws := s.data.length - l1.length
  let sg := scanSign l1
  let ip := scanDigits sg.2.2 0 0
  let fp : Nat × Nat × Nat × List Char :=
    match ip.2.2 with
    | [] => (0, 0, 0, [])
    | c :: cs =>
      if c = Char.ofNat 46 then
        let d := scanDigits cs 0 0
        (1, d.1, d.2.1, d.2.2)
      else (0, 0, 0, c :: cs)
  if ip.2.1 + fp.2.2.1 = 0 then { val := 0, consumed := 0, erange := false }
  else
    let ex := scanExponent fp.2.2.2
    let mant : ℚ := (ip.1 : ℚ) * (10 : ℚ) ^ fp.2.2.1 + (fp.2.1 : ℚ)
    let v := scale10 mant (ex.1 - (fp.2.2.1 : Int))
    { val := if sg.1 then -(binary64 v) else binary64 v,
      consumed := ws + sg.2.1 + ip.2.1 + fp.1 + fp.2.2.1 + ex.2,
      erange := decide ((2 : ℚ) ^ 1024 - (2 : ℚ) ^ 970 ≤ v) }

/-! ### Workload generator, sequential mode -/

/-- A call of a public member function of `GarageMonitor`. -/
inductive Op where
  | addDiagnostic (carId : String) (type : DiagnosticType) (value : ℚ)
  | loadCSV (input : String)
  | statusOf (carId : String)
  | averageScore
  | hasCar (id : String)
  | printStatus
  deriving DecidableEq, Repr

/-- The registry after one call. The four queries are `const` member functions: they
return a value and leave `cars_` as it is. A `loadCSV` that throws leaves the registry
it has built so far. -/
def Op.apply (strtod : String → StrtodResult) (m : GarageMonitor) : Op → GarageMonitor
  | Op.addDiagnostic carId type value => m.addDiagnostic carId type value
  | Op.loadCSV input => (m.loadCSV strtod input []).gm
  | Op.statusOf _ => m
  | Op.averageScore => m
  | Op.hasCar _ => m
  | Op.printStatus => m

/-- The registry after a sequence of calls, first call first. -/
def runOps (strtod : String → StrtodResult) (m : GarageMonitor) (ops : List Op) :
    GarageMonitor :=
  ops.foldl (Op.apply strtod) m

/-! ### Vocabulary of the specification -/

/-- The stored reading of kind `k` of a car, through the getter of that kind; the
sentinel kind has no reading. -/
def Car.reading (c : Car) : DiagnosticType → Option ℚ
  | DiagnosticType.RPM => c.rpm
  | DiagnosticType.EngineLoad => c.engineLoad
  | DiagnosticType.CoolantTemp => c.coolantTemp
  | DiagnosticType.Unknown => none

/-- The stored reading of kind `k` of vehicle `id`: absent when the vehicle is not in
the registry or has no such reading. -/
def GarageMonitor.reading (m : GarageMonitor) (id : String) (k : DiagnosticType) :
    Option ℚ :=
  (mapFind m.cars_ id).bind (fun c => c.reading k)

/-- The value of the formula of the score in exact arithmetic. -/
def exactScore (rpm load temp : ℚ) : ℚ :=
  100 - (rpm / 100 + load * (1 / 2) + (temp - 90) * 2)

/-- The sum of a list of doubles as a loop `sum += x` computes it: from `0.0`, in list
order, every addition rounded to binary64. -/
def doubleSum (l : List ℚ) : ℚ :=
  l.foldl dadd 0

/-- The complete vehicles of the registry, in key order. -/
def GarageMonitor.completeCars (m : GarageMonitor) : List Car :=
  (m.cars_.map Prod.snd).filter Car.hasAllRequired

/-- The scores of the complete vehicles of the registry, in key order. -/
def GarageMonitor.completeScores (m : GarageMonitor) : List ℚ :=
  m.completeCars.filterMap Car.computePerformanceScore

/-- The registry after a sequence of `addDiagnostic` calls, first call first. -/
def ingestAll (m : GarageMonitor) (calls : List Diagnostic) : GarageMonitor :=
  calls.foldl (fun g d => g.addDiagnostic d.id_ d.type_ d.value_) m

/-- The value of the last call of the sequence for `(id, k)`, if there is one. -/
def lastWrite (calls : List Diagnostic) (id : String) (k : DiagnosticType) : Option ℚ :=
  ((calls.filter (fun d => d.id_ = id ∧ d.type_ = k)).getLast?).map Diagnostic.getValue

/-- The rows a bulk load ingests: the lines of the input that reach `addDiagnostic`, in
input order, numbered from `lineNo + 1`. -/
def ingestedRows (strtod : String → StrtodResult) (lineNo : Nat) :
    List (List Char) → List Diagnostic
  | [] => []
  | line :: rest =>
    match parseLine strtod (lineNo + 1) ⟨line⟩ with
    | LineOutcome.row carId type val =>
      { id_ := carId, type_ := type, value_ := val } :: ingestedRows strtod (lineNo + 1) rest
    | _ => ingestedRows strtod (lineNo + 1) rest

/-- The vehicle ids named by the ingests of a sequence of calls: the id of every
`addDiagnostic` and of every row a `loadCSV` ingests. -/
def ingestedIds (strtod : String → StrtodResult) : List Op → List String
  | [] => []
  | Op.addDiagnostic carId _ _ :: ops => carId :: ingestedIds strtod ops
  | Op.loadCSV input :: ops =>
    (ingestedRows strtod 0 (splitLines input.data)).map Diagnostic.getId
      ++ ingestedIds strtod ops
  | _ :: ops => ingestedIds strtod ops

/-- A blank line or a comment line: nothing but white space, or `#` as the first
character that is not white space. -/
def isBlankOrComment (line : List Char) : Bool :=
  match line.dropWhile isspace with
  | [] => true
  | c :: _ => c == Char.ofNat 35

/-- The rejected lines of a bulk load: the number and the message of every line that
ends in `errors.push_back`, in input order, numbered from `lineNo + 1`. -/
def rejectedLines (strtod : String → StrtodResult) (lineNo : Nat) :
    List (List Char) → List (Nat × String)
  | [] => []
  | line :: rest =>
    match parseLine strtod (lineNo + 1) ⟨line⟩ with
    | LineOutcome.error msg => (lineNo + 1, msg) :: rejectedLines strtod (lineNo + 1) rest
    | _ => rejectedLines strtod (lineNo + 1) rest

/-- The leading bit found by `log2Fuel` brackets the number. -/
theorem log2Fuel_spec (fuel n : Nat) (hn : n ≠ 0) (hfuel : n ≤ fuel) :
    2 ^ log2Fuel fuel n ≤ n ∧ n < 2 ^ (log2Fuel fuel n + 1) := by
  induction fuel generalizing n with
  | zero => omega
  | succ fuel ih =>
    unfold log2Fuel
    by_cases h2 : 2 ≤ n
    · simp only [if_pos h2]
      obtain ⟨h1, h3⟩ := ih (n / 2) (by omega) (by omega)
      rw [Nat.pow_succ, Nat.pow_succ]
      rw [Nat.pow_succ] at h3
      constructor <;> omega
    · simp only [if_neg h2]
      constructor <;> simp <;> omega

/-- The binary exponent of a positive rational is not above it. -/
theorem two_zpow_ilog2_le (x : ℚ) (hx : 0 < x) : (2 : ℚ) ^ ilog2 x ≤ x := by
  unfold ilog2
  dsimp only
  split
  · assumption
  · have hnum : 0 < x.num := Rat.num_pos.mpr hx
    have hden : 0 < x.den := x.den_pos
    have hane : x.num.toNat ≠ 0 := by omega
    have ha := (log2Fuel_spec x.num.toNat x.num.toNat hane (Nat.le_refl _)).1
    have hb := (log2Fuel_spec x.den x.den (by omega) (Nat.le_refl _)).2
    have hxeq : x = (x.num.toNat : ℚ) / (x.den : ℚ) := by
      have h1 : ((x.num.toNat : ℤ) : ℚ) = (x.num : ℚ) := by
        rw [Int.toNat_of_nonneg (le_of_lt hnum)]
      have h2 : ((x.num.toNat : ℕ) : ℚ) = ((x.num.toNat : ℤ) : ℚ) := by push_cast; rfl
      rw [h2, h1]
      exact (Rat.num_div_den x).symm
    have ha' : ((2 : ℚ) ^ log2Fuel x.num.toNat x.num.toNat) ≤ (x.num.toNat : ℚ) := by
      exact_mod_cast ha
    have hb' : (x.den : ℚ) ≤ (2 : ℚ) ^ (log2Fuel x.den x.den + 1) := by
      exact_mod_cast le_of_lt hb
    have hpow : (2 : ℚ) ^ ((log2Fuel x.num.toNat x.num.toNat : ℤ)
        - (log2Fuel x.den x.den : ℤ) - 1)
        = (2 : ℚ) ^ log2Fuel x.num.toNat x.num.toNat
          / (2 : ℚ) ^ (log2Fuel x.den x.den + 1) := by
      rw [sub_sub, zpow_sub₀ (by norm_num : (2 : ℚ) ≠ 0)]
      congr 1
      · exact zpow_natCast 2 _
      · have : ((log2Fuel x.den x.den : ℤ) + 1) = ((log2Fuel x.den x.den + 1 : ℕ) : ℤ) := by
          push_cast; rfl
        rw [this]
        exact zpow_natCast 2 _
    rw [hpow]
    conv_rhs => rw [hxeq]
    have hdpos : (0 : ℚ) < (x.den : ℚ) := by exact_mod_cast hden
    exact div_le_div₀ (by positivity) ha' hdpos hb'

/-- Rounding to the nearest integer moves a rational by at most one half. -/
theorem roundEven_error (q : ℚ) : |(roundEven q : ℚ) - q| ≤ 1 / 2 := by
  have h1 : ((⌊q⌋ : ℤ) : ℚ) ≤ q := Int.floor_le q
  have h2 : q < ((⌊q⌋ : ℤ) : ℚ) + 1 := Int.lt_floor_add_one q
  unfold roundEven
  dsimp only
  rw [abs_le]
  split
  · constructor <;> linarith
  · split
    · push_cast
      constructor <;> linarith
    · split
      · constructor <;> linarith
      · push_cast
        constructor <;> linarith

/-- The spacing of the doubles is positive. -/
theorem ulp_pos (x : ℚ) : 0 < ulp x := by
  unfold ulp
  positivity

/-- The spacing of the doubles around a rational of magnitude at most `2 ^ k`. -/
theorem ulp_le (x : ℚ) (hx : x ≠ 0) (k : ℤ) (hk : -1022 ≤ k) (hxk : |x| ≤ (2 : ℚ) ^ k) :
    ulp x ≤ (2 : ℚ) ^ (k - 52) := by
  unfold ulp
  have hpos : 0 < |x| := abs_pos.mpr hx
  have h1 : (2 : ℚ) ^ ilog2 |x| ≤ (2 : ℚ) ^ k := le_trans (two_zpow_ilog2_le |x| hpos) hxk
  have h2 : ilog2 |x| ≤ k := (zpow_le_zpow_iff_right₀ (by norm_num : (1 : ℚ) < 2)).mp h1
  apply zpow_le_zpow_right₀ (by norm_num : (1 : ℚ) ≤ 2)
  have : max (ilog2 |x|) (-1022) ≤ k := max_le h2 hk
  omega

/-- Rounding a rational of magnitude at most `2 ^ k` to a double moves it by at most
`2 ^ (k - 53)`: half the spacing of the doubles there. -/
theorem binary64_error (x : ℚ) (k : ℤ) (hk : -1022 ≤ k) (hxk : |x| ≤ (2 : ℚ) ^ k) :
    |binary64 x - x| ≤ (2 : ℚ) ^ (k - 53) := by
  unfold binary64
  by_cases hx : x = 0
  · rw [if_pos hx, hx, sub_self, abs_zero]
    exact (zpow_pos (by norm_num : (0 : ℚ) < 2) _).le
  · simp only [if_neg hx]
    have hu := ulp_pos x
    have hule := ulp_le x hx k hk hxk
    have hr := roundEven_error (x / ulp x)
    have heq : (roundEven (x / ulp x) : ℚ) * ulp x - x
        = ((roundEven (x / ulp x) : ℚ) - x / ulp x) * ulp x := by
      field_simp
    rw [heq, abs_mul, abs_of_pos hu]
    have h53 : (2 : ℚ) ^ (k - 53) = 1 / 2 * (2 : ℚ) ^ (k - 52) := by
      have : k - 53 = (k - 52) - 1 := by ring
      rw [this, zpow_sub_one₀ (by norm_num : (2 : ℚ) ≠ 0)]
      ring
    rw [h53]
    exact mul_le_mul hr hule (le_of_lt hu) (by norm_num)

theorem mapFind_mapModify_self (l : List (String × Car)) (k : String) (f : Car → Car) :
    mapFind (mapModify l k f) k = (mapFind l k).map f := by
  induction l with
  | nil => rfl
  | cons kv rest ih =>
    obtain ⟨k', c⟩ := kv
    by_cases h : k' = k
    · simp [mapModify, mapFind, h]
    · simp [mapModify, mapFind, h, ih]

theorem mapFind_mapModify_ne (l : List (String × Car)) (k k' : String) (f : Car → Car)
    (hne : k' ≠ k) : mapFind (mapModify l k f) k' = mapFind l k' := by
  induction l with
  | nil => rfl
  | cons kv rest ih =>
    obtain ⟨k0, c⟩ := kv
    by_cases h : k0 = k
    · subst h
      have h' : ¬ k0 = k' := fun e => hne e.symm
      simp [mapModify, mapFind, h']
    · by_cases h2 : k0 = k'
      · subst h2
        simp only [mapModify, mapFind, if_neg h, if_true]
      · simp only [mapModify, mapFind, if_neg h, if_neg h2, ih]

theorem mapFind_mapEmplace_self (l : List (String × Car)) (k : String) (c : Car)
    (hnone : mapFind l k = none) : mapFind (mapEmplace l k c) k = some c := by
  induction l with
  | nil => simp [mapEmplace, mapFind]
  | cons kv rest ih =>
    obtain ⟨k0, c0⟩ := kv
    have hk : ¬ k0 = k := by
      intro e
      simp [mapFind, e] at hnone
    have hrest : mapFind rest k = none := by
      simpa [mapFind, hk] using hnone
    by_cases h1 : k < k0
    · simp only [mapEmplace, mapFind, if_pos h1, if_true]
    · by_cases h2 : k0 < k
      · simp only [mapEmplace, mapFind, if_neg h1, if_pos h2, if_neg hk, ih hrest]
      · exact absurd (le_antisymm (not_lt.mp h1) (not_lt.mp h2)) hk

theorem mapFind_mapEmplace_ne (l : List (String × Car)) (k k' : String) (c : Car)
    (hne : k' ≠ k) : mapFind (mapEmplace l k c) k' = mapFind l k' := by
  have hne' : ¬ k = k' := fun e => hne e.symm
  induction l with
  | nil => simp [mapEmplace, mapFind, hne']
  | cons kv rest ih =>
    obtain ⟨k0, c0⟩ := kv
    by_cases h1 : k < k0
    · simp only [mapEmplace, mapFind, if_pos h1, if_neg hne']
    · by_cases h2 : k0 < k
      · by_cases h3 : k0 = k'
        · subst h3
          simp only [mapEmplace, mapFind, if_neg h1, if_pos h2, if_true]
        · simp only [mapEmplace, mapFind, if_neg h1, if_pos h2, if_neg h3, ih]
      · simp only [mapEmplace, if_neg h1, if_neg h2]

/-- The car stored under `carId` after `addDiagnostic carId`: the previous car, or a new
one, updated by the diagnostic. -/
theorem mapFind_addDiagnostic_self (m : GarageMonitor) (carId : String)
    (type : DiagnosticType) (value : ℚ) :
    mapFind (m.addDiagnostic carId type value).cars_ carId
      = some (((mapFind m.cars_ carId).getD (Car.new carId)).addDiagnostic
          { id_ := carId, type_ := type, value_ := value }) := by
  unfold GarageMonitor.addDiagnostic
  cases hf : mapFind m.cars_ carId with
  | none =>
    simp only [mapFind_mapModify_self, mapFind_mapEmplace_self _ _ _ hf, Option.map_some',
      Option.getD_none]
  | some c =>
    simp only [mapFind_mapModify_self, hf, Option.map_some', Option.getD_some]

/-- The cars stored under the other ids are untouched by `addDiagnostic carId`. -/
theorem mapFind_addDiagnostic_ne (m : GarageMonitor) (carId id' : String)
    (type : DiagnosticType) (value : ℚ) (hne : id' ≠ carId) :
    mapFind (m.addDiagnostic carId type value).cars_ id' = mapFind m.cars_ id' := by
  unfold GarageMonitor.addDiagnostic
  cases hf : mapFind m.cars_ carId with
  | none =>
    simp only [mapFind_mapModify_ne _ _ _ _ hne, mapFind_mapEmplace_ne _ _ _ _ hne]
  | some c =>
    simp only [mapFind_mapModify_ne _ _ _ _ hne]

/-! ## Scoring and status -/

/-- The score of a car with all three readings: the formula, operation by operation in
binary64. -/
theorem computePerformanceScore_of_readings (c : Car) (rpm load temp : ℚ)
    (hr : c.rpm = some rpm) (hl : c.engineLoad = some load) (ht : c.coolantTemp = some temp) :
    c.computePerformanceScore
      = some (dsub 100 (dadd (dadd (ddiv rpm 100) (dmul load (1 / 2))) (dmul (dsub temp 90) 2))) := by
  obtain ⟨id, r, l, t⟩ := c
  simp only [Car.rpm, Car.engineLoad, Car.coolantTemp] at hr hl ht
  subst hr hl ht
  simp only [Car.computePerformanceScore, Car.hasAllRequired, Option.isSome_some, Bool.and_self,
    Bool.not_true, Bool.false_eq_true, if_false, Option.some.injEq]
  norm_num

/-- Rounding a rational of magnitude at most `2 ^ 18` to a double moves it by at most
`2 ^ (-35)`. -/
theorem binary64_error_small (x : ℚ) (hx : |x| ≤ 262144) :
    |binary64 x - x| ≤ 1 / 34359738368 := by
  have h := binary64_error x 18 (by norm_num) (by
    have e : (2 : ℚ) ^ (18 : ℤ) = 262144 := by norm_num
    rw [e]
    exact hx)
  have e2 : (2 : ℚ) ^ ((18 : ℤ) - 53) = 1 / 34359738368 := by norm_num
  rw [e2] at h
  exact h

/-- The score in binary64 of readings of magnitude at most 100000 is within `2 ^ (-32)`,
hence within `1e-9`, of the value of the formula in exact arithmetic. -/
theorem score_close_to_exact (rpm load temp : ℚ) (hr : |rpm| ≤ 100000)
    (hl : |load| ≤ 100000) (ht : |temp| ≤ 100000) :
    |dsub 100 (dadd (dadd (ddiv rpm 100) (dmul load (1 / 2))) (dmul (dsub temp 90) 2))
        - exactScore rpm load temp| ≤ 1 / 1000000000 := by
  obtain ⟨hr1, hr2⟩ := abs_le.mp hr
  obtain ⟨hl1, hl2⟩ := abs_le.mp hl
  obtain ⟨ht1, ht2⟩ := abs_le.mp ht
  have ha := abs_le.mp (binary64_error_small (rpm / 100)
    (abs_le.mpr ⟨by linarith, by linarith⟩))
  have hb := abs_le.mp (binary64_error_small (load * (1 / 2))
    (abs_le.mpr ⟨by linarith, by linarith⟩))
  have hc := abs_le.mp (binary64_error_small (temp - 90)
    (abs_le.mpr ⟨by linarith, by linarith⟩))
  have hd := abs_le.mp (binary64_error_small (binary64 (temp - 90) * 2)
    (abs_le.mpr ⟨by linarith, by linarith⟩))
  have he := abs_le.mp (binary64_error_small (binary64 (rpm / 100) + binary64 (load * (1 / 2)))
    (abs_le.mpr ⟨by linarith, by linarith⟩))
  have hf := abs_le.mp (binary64_error_small
    (binary64 (binary64 (rpm / 100) + binary64 (load * (1 / 2)))
      + binary64 (binary64 (temp - 90) * 2))
    (abs_le.mpr ⟨by linarith, by linarith⟩))
  have hg := abs_le.mp (binary64_error_small
    (100 - binary64 (binary64 (binary64 (rpm / 100) + binary64 (load * (1 / 2)))
      + binary64 (binary64 (temp - 90) * 2)))
    (abs_le.mpr ⟨by linarith, by linarith⟩))
  unfold dsub dadd ddiv dmul exactScore
  rw [abs_le]
  constructor <;> linarith

/-- C1 (counterexample): the score is not always the value of the formula, neither
exactly nor within `1e-9`. With RPM 1, EngineLoad 0 and CoolantTemp 90 the formula is
99.99, which is not a double, and the code returns the double
`7036170730324623 / 2 ^ 46` next to it. With RPM `2 ^ 60`, EngineLoad 1 and CoolantTemp 90
the code returns -11529215046068370, which is 0.26 away from the value of the formula. -/
theorem computePerformanceScore_not_exact :
    (Car.computePerformanceScore
        { id_ := "C", rpm_ := some 1, engineLoad_ := some 0, coolantTemp_ := some 90 }
      = some (7036170730324623 / 70368744177664)
    ∧ Car.computePerformanceScore
        { id_ := "C", rpm_ := some 1, engineLoad_ := some 0, coolantTemp_ := some 90 }
      ≠ some (100 - (1 / 100 + 0 * (1 / 2) + (90 - 90) * 2)))
    ∧ (Car.computePerformanceScore
        { id_ := "C", rpm_ := some (2 ^ 60), engineLoad_ := some 1, coolantTemp_ := some 90 }
      = some (-11529215046068370)
    ∧ (1 : ℚ) / 1000000000
      < |(-11529215046068370 : ℚ) - (100 - (2 ^ 60 / 100 + 1 * (1 / 2) + (90 - 90) * 2))|) := by
  refine ⟨⟨?_, ?_⟩, ?_, ?_⟩
  · decide!
  · decide!
  · decide!
  · norm_num [abs_of_pos]

/-- C1 (amended): a car whose RPM, EngineLoad and CoolantTemp readings are all present
(values `rpm`, `load`, `temp`) has a present score; for readings of magnitude at most
`2 ^ 1000`, for which no operation overflows, the score is the formula
`100 - (rpm/100 + load*0.5 + (temp-90)*2)` evaluated in binary64 with every operation
rounded to the nearest double; for readings of magnitude at most 100000 it is within
`1e-9` of the value of the formula in exact arithmetic; and it is clamped to no range:
readings 2000, 10, 90 give exactly 75, readings 6500, 95, 120 give exactly -72.5, and
readings 0, 0, 0 give 280. -/
theorem computePerformanceScore_binary64 :
    (∀ (c : Car) (rpm load temp : ℚ),
      c.rpm = some rpm → c.engineLoad = some load → c.coolantTemp = some temp →
      c.computePerformanceScore.isSome = true)
    ∧ (∀ (c : Car) (rpm load temp : ℚ),
      c.rpm = some rpm → c.engineLoad = some load → c.coolantTemp = some temp →
      |rpm| ≤ 2 ^ 1000 → |load| ≤ 2 ^ 1000 → |temp| ≤ 2 ^ 1000 →
      c.computePerformanceScore
        = some (dsub 100
            (dadd (dadd (ddiv rpm 100) (dmul load (1 / 2))) (dmul (dsub temp 90) 2))))
    ∧ (∀ (c : Car) (rpm load temp : ℚ),
      c.rpm = some rpm → c.engineLoad = some load → c.coolantTemp = some temp →
      |rpm| ≤ 100000 → |load| ≤ 100000 → |temp| ≤ 100000 →
      ∃ s, c.computePerformanceScore = some s
        ∧ |s - (100 - (rpm / 100 + load * (1 / 2) + (temp - 90) * 2))| ≤ 1 / 1000000000)
    ∧ Car.computePerformanceScore
        { id_ := "CarZ", rpm_ := some 2000, engineLoad_ := some 10, coolantTemp_ := some 90 }
        = some 75
    ∧ Car.computePerformanceScore
        { id_ := "CarX", rpm_ := some 6500, engineLoad_ := some 95, coolantTemp_ := some 120 }
        = some (-(145 / 2))
    ∧ Car.computePerformanceScore
        { id_ := "CarW", rpm_ := some 0, engineLoad_ := some 0, coolantTemp_ := some 0 }
        = some 280 := by
  refine ⟨?_, ?_, ?_, by decide!, by decide!, by decide!⟩
  · intro c rpm load temp hr hl ht
    rw [computePerformanceScore_of_readings c rpm load temp hr hl ht]
    rfl
  · intro c rpm load temp hr hl ht _ _ _
    exact computePerformanceScore_of_readings c rpm load temp hr hl ht
  · intro c rpm load temp hr hl ht hrb hlb htb
    refine ⟨_, computePerformanceScore_of_readings c rpm load temp hr hl ht, ?_⟩
    exact score_close_to_exact rpm load temp hrb hlb htb

/-- A complete car has a score. -/
theorem computePerformanceScore_isSome (c : Car) (h : c.hasAllRequired = true) :
    ∃ s, c.computePerformanceScore = some s := by
  obtain ⟨id, r, l, t⟩ := c
  cases r <;> cases l <;> cases t <;> simp [Car.hasAllRequired] at h
  exact ⟨_, computePerformanceScore_of_readings _ _ _ _ rfl rfl rfl⟩

/-- An incomplete car has no score. -/
theorem computePerformanceScore_eq_none (c : Car) (h : c.hasAllRequired = false) :
    c.computePerformanceScore = none := by
  simp [Car.computePerformanceScore, h]

/-- The status of a complete car, in terms of its score. -/
theorem statusOfUnlocked_complete (car : Car) (s : ℚ) (h : car.hasAllRequired = true)
    (hs : car.computePerformanceScore = some s) :
    GarageMonitor.statusOfUnlocked car
      = { hasAll := true, score := some s,
          alert := if s < 40 then "Severe Engine Stress" else "" } := by
  unfold GarageMonitor.statusOfUnlocked
  simp only [h, hs, Bool.not_true, Bool.false_eq_true, if_false]
  have e : ((40.0 : ℚ)) = 40 := by norm_num
  rw [e]
  split <;> rfl

/-- The status of an incomplete car. -/
theorem statusOfUnlocked_incomplete (car : Car) (h : car.hasAllRequired = false) :
    GarageMonitor.statusOfUnlocked car
      = { hasAll := false, score := none, alert := "Sensor Failure Detected" } := by
  simp [GarageMonitor.statusOfUnlocked, h]

/-- C2: when the vehicle stored under `id` is complete, `statusOf id` has `hasAll = true`
and a present score, the score of the car; its alert is "Severe Engine Stress" if and
only if that score is strictly below 40 and is empty otherwise. At score exactly 40
(RPM 0, EngineLoad 0, CoolantTemp 120) the alert is empty. -/
theorem statusOf_complete :
    (∀ (m : GarageMonitor) (id : String) (car : Car),
      mapFind m.cars_ id = some car → car.hasAllRequired = true →
      ∃ s : ℚ, car.computePerformanceScore = some s
        ∧ (m.statusOf id).hasAll = true
        ∧ (m.statusOf id).score = some s
        ∧ ((m.statusOf id).alert = "Severe Engine Stress" ↔ s < 40)
        ∧ (¬ s < 40 → (m.statusOf id).alert = ""))
    ∧ (ingestAll GarageMonitor.empty
          [{ id_ := "Bnd", type_ := DiagnosticType.RPM, value_ := 0 },
           { id_ := "Bnd", type_ := DiagnosticType.EngineLoad, value_ := 0 },
           { id_ := "Bnd", type_ := DiagnosticType.CoolantTemp, value_ := 120 }]).statusOf "Bnd"
        = { hasAll := true, score := some 40, alert := "" } := by
  constructor
  · intro m id car hfind hall
    obtain ⟨s, hs⟩ := computePerformanceScore_isSome car hall
    have hst : m.statusOf id =
        { hasAll := true, score := some s,
          alert := if s < 40 then "Severe Engine Stress" else "" } := by
      simp only [GarageMonitor.statusOf, hfind]
      exact statusOfUnlocked_complete car s hall hs
    refine ⟨s, hs, ?_, ?_, ?_, ?_⟩
    · rw [hst]
    · rw [hst]
    · rw [hst]
      by_cases h40 : s < 40
      · simp [h40]
      · simp only [if_neg h40, h40, iff_false]
        decide
    · intro h40
      rw [hst]
      simp only [if_neg h40]
  · have hfind : mapFind (ingestAll GarageMonitor.empty
          [{ id_ := "Bnd", type_ := DiagnosticType.RPM, value_ := 0 },
           { id_ := "Bnd", type_ := DiagnosticType.EngineLoad, value_ := 0 },
           { id_ := "Bnd", type_ := DiagnosticType.CoolantTemp, value_ := 120 }]).cars_ "Bnd"
        = some { id_ := "Bnd", rpm_ := some 0, engineLoad_ := some 0,
                 coolantTemp_ := some 120 } := by
      simp only [ingestAll, List.foldl_cons, List.foldl_nil, mapFind_addDiagnostic_self]
      rfl
    simp only [GarageMonitor.statusOf, hfind]
    have hscore : Car.computePerformanceScore
        { id_ := "Bnd", rpm_ := some 0, engineLoad_ := some 0, coolantTemp_ := some 120 }
        = some 40 := by
      decide!
    rw [statusOfUnlocked_complete
      { id_ := "Bnd", rpm_ := some 0, engineLoad_ := some 0, coolantTemp_ := some 120 }
      40 rfl hscore]
    simp

/-- C3: a vehicle present in the registry that lacks at least one of its RPM, EngineLoad
or CoolantTemp readings has the status `hasAll = false`, alert "Sensor Failure Detected"
and no score. -/
theorem statusOf_incomplete (m : GarageMonitor) (id : String) (car : Car)
    (hfind : mapFind m.cars_ id = some car)
    (hlack : car.rpm = none ∨ car.engineLoad = none ∨ car.coolantTemp = none) :
    m.statusOf id
      = { hasAll := false, score := none, alert := "Sensor Failure Detected" } := by
  have hall : car.hasAllRequired = false := by
    obtain ⟨cid, r, l, t⟩ := car
    simp only [Car.rpm, Car.engineLoad, Car.coolantTemp] at hlack
    rcases hlack with h | h | h <;> subst h <;> simp [Car.hasAllRequired]
  simp only [GarageMonitor.statusOf, hfind]
  exact statusOfUnlocked_incomplete car hall

/-- The case of test 2: CarY with an RPM and an EngineLoad reading and no CoolantTemp. -/
theorem statusOf_incomplete_witness :
    (ingestAll GarageMonitor.empty
        [{ id_ := "CarY", type_ := DiagnosticType.RPM, value_ := 3000 },
         { id_ := "CarY", type_ := DiagnosticType.EngineLoad, value_ := 50 }]).statusOf "CarY"
      = { hasAll := false, score := none, alert := "Sensor Failure Detected" } :=
  statusOf_incomplete _ "CarY"
    { id_ := "CarY", rpm_ := some 3000, engineLoad_ := some 50, coolantTemp_ := none }
    (by simp only [ingestAll, List.foldl_cons, List.foldl_nil, mapFind_addDiagnostic_self]
        rfl)
    (Or.inr (Or.inr rfl))

/-! ## Fleet average -/

/-- An `int` value in the range of the type is kept as it is. -/
theorem wrapInt32_of_lt (z : Int) (h0 : 0 ≤ z) (h : z < 2 ^ 31) : wrapInt32 z = z := by
  unfold wrapInt32
  omega

/-- The loop of `averageScore` adds the scores of the complete cars to `sum`, in binary64
and in key order, and their number to `n`, as long as the counter stays in the range of
`int`. -/
theorem foldl_averageStep (l : List (String × Car)) (acc : ℚ × Int) (k : Nat)
    (hk : acc.2 = (k : Int))
    (hsize : k + ((l.map Prod.snd).filter Car.hasAllRequired).length < 2 ^ 31) :
    l.foldl GarageMonitor.averageStep acc
      = ((((l.map Prod.snd).filter Car.hasAllRequired).filterMap
            Car.computePerformanceScore).foldl dadd acc.1,
         ((k + ((l.map Prod.snd).filter Car.hasAllRequired).length : Nat) : Int)) := by
  induction l generalizing acc k with
  | nil =>
    obtain ⟨a, n⟩ := acc
    simp only at hk
    simp [hk]
  | cons kv rest ih =>
    rw [List.foldl_cons]
    cases hall : kv.2.hasAllRequired with
    | false =>
      have hstep : GarageMonitor.averageStep acc kv = acc := by
        simp [GarageMonitor.averageStep, hall]
      have hfilter : ((kv :: rest).map Prod.snd).filter Car.hasAllRequired
          = (rest.map Prod.snd).filter Car.hasAllRequired := by
        simp [hall]
      rw [hstep, hfilter]
      rw [hfilter] at hsize
      exact ih acc k hk hsize
    | true =>
      obtain ⟨s, hs⟩ := computePerformanceScore_isSome kv.2 hall
      have hfilter : ((kv :: rest).map Prod.snd).filter Car.hasAllRequired
          = kv.2 :: (rest.map Prod.snd).filter Car.hasAllRequired := by
        simp [hall]
      rw [hfilter] at hsize ⊢
      simp only [List.length_cons] at hsize
      have hwrap : wrapInt32 (acc.2 + 1) = ((k + 1 : Nat) : Int) := by
        rw [hk, wrapInt32_of_lt _ (by omega) (by omega)]
        push_cast
        rfl
      have hstep : GarageMonitor.averageStep acc kv = (dadd acc.1 s, ((k + 1 : Nat) : Int)) := by
        simp only [GarageMonitor.averageStep, hall, hs, if_true, hwrap]
      rw [hstep, ih (dadd acc.1 s, ((k + 1 : Nat) : Int)) (k + 1) rfl (by omega)]
      simp only [List.filterMap_cons, hs, List.foldl_cons, List.length_cons]
      congr 2
      omega

/-- Every complete vehicle has a score: the list of scores is the list of complete
vehicles, mapped. -/
theorem completeScores_spec (m : GarageMonitor) :
    m.completeCars.map Car.computePerformanceScore = m.completeScores.map some := by
  unfold GarageMonitor.completeScores
  have key : ∀ l : List Car, (∀ c ∈ l, c.hasAllRequired = true) →
      l.map Car.computePerformanceScore
        = (l.filterMap Car.computePerformanceScore).map some := by
    intro l
    induction l with
    | nil => intro _; rfl
    | cons c rest ih =>
      intro h
      obtain ⟨s, hs⟩ := computePerformanceScore_isSome c (h c (List.mem_cons_self _ _))
      have ih' := ih (fun c' hc' => h c' (List.mem_cons_of_mem _ hc'))
      simp only [List.map_cons, List.filterMap_cons, hs, ih']
  apply key
  intro c hc
  exact (List.mem_filter.mp hc).2

/-- The result of `averageScore` on a fleet whose complete vehicles are counted without
overflow: absent without complete vehicle, and otherwise the binary64 sum of their scores
divided in binary64 by their number. -/
theorem averageScore_eq (m : GarageMonitor) (hsize : m.completeCars.length < 2 ^ 31) :
    m.averageScore
      = if m.completeCars.length = 0 then none
        else some (ddiv (doubleSum m.completeScores) (m.completeCars.length : ℚ)) := by
  unfold GarageMonitor.averageScore
  rw [foldl_averageStep m.cars_ (0, 0) 0 rfl (by simpa [GarageMonitor.completeCars] using hsize)]
  simp only [GarageMonitor.completeCars, GarageMonitor.completeScores, doubleSum, Nat.zero_add,
    Int.natCast_eq_zero, Int.cast_natCast]

/-- No complete vehicle in the list of complete vehicles means no complete vehicle in the
registry. -/
theorem completeCars_length_eq_zero (m : GarageMonitor) :
    m.completeCars.length = 0 ↔ ∀ kv ∈ m.cars_, kv.2.hasAllRequired = false := by
  rw [List.length_eq_zero]
  unfold GarageMonitor.completeCars
  rw [List.filter_eq_nil_iff]
  constructor
  · intro h kv hkv
    have := h kv.2 (List.mem_map_of_mem _ hkv)
    simpa using this
  · intro h c hc
    obtain ⟨kv, hkv, rfl⟩ := List.mem_map.mp hc
    simp [h kv hkv]

/-- Rounding a rational of magnitude at most `2 ^ 20` to a double moves it by at most
`2 ^ (-33)`. -/
theorem binary64_error_sum (x : ℚ) (hx : |x| ≤ 1048576) :
    |binary64 x - x| ≤ 1 / 8589934592 := by
  have h := binary64_error x 20 (by norm_num) (by
    have e : (2 : ℚ) ^ (20 : ℤ) = 1048576 := by norm_num
    rw [e]
    exact hx)
  have e2 : (2 : ℚ) ^ ((20 : ℤ) - 53) = 1 / 8589934592 := by norm_num
  rw [e2] at h
  exact h

/-- The running binary64 sum of at most 1000 scores of magnitude at most 1000 stays
within `2 ^ (-33)` per addition of the exact sum. -/
theorem foldl_dadd_close (l : List ℚ) (acc exact : ℚ) (j : Nat)
    (hlen : j + l.length ≤ 1000) (hl : ∀ s ∈ l, |s| ≤ 1000)
    (hacc : |acc - exact| ≤ (j : ℚ) * (1 / 8589934592))
    (hexact : |exact| ≤ (j : ℚ) * 1000) :
    |l.foldl dadd acc - (exact + l.sum)| ≤ ((j + l.length : Nat) : ℚ) * (1 / 8589934592)
    ∧ |exact + l.sum| ≤ ((j + l.length : Nat) : ℚ) * 1000 := by
  induction l generalizing acc exact j with
  | nil =>
    simp only [List.foldl_nil, List.sum_nil, List.length_nil, add_zero]
    exact ⟨hacc, hexact⟩
  | cons s rest ih =>
    simp only [List.length_cons] at hlen
    have hs := abs_le.mp (hl s (List.mem_cons_self _ _))
    have ha := abs_le.mp hacc
    have he := abs_le.mp hexact
    have hj : (j : ℚ) + 1 ≤ 1000 := by
      have : j + 1 ≤ 1000 := by omega
      exact_mod_cast this
    have hj0 : (0 : ℚ) ≤ (j : ℚ) := Nat.cast_nonneg j
    have hr := abs_le.mp (binary64_error_sum (acc + s)
      (abs_le.mpr ⟨by nlinarith, by nlinarith⟩))
    have hstep := ih (dadd acc s) (exact + s) (j + 1) (by omega)
      (fun x hx => hl x (List.mem_cons_of_mem _ hx))
      (by unfold dadd
          push_cast
          rw [abs_le]
          constructor <;> linarith)
      (by push_cast
          rw [abs_le]
          constructor <;> linarith)
    have e1 : j + 1 + rest.length = j + (rest.length + 1) := by omega
    simp only [List.foldl_cons, List.sum_cons, List.length_cons]
    rw [← add_assoc exact s, ← e1]
    exact hstep

/-- The average `averageScore` computes for at most 1000 complete vehicles with scores of
magnitude at most 1000 is within `1e-9` of their arithmetic mean. -/
theorem average_close_to_mean (scores : List ℚ) (hne : scores ≠ [])
    (hlen : scores.length ≤ 1000) (hl : ∀ s ∈ scores, |s| ≤ 1000) :
    |ddiv (doubleSum scores) (scores.length : ℚ) - scores.sum / (scores.length : ℚ)|
      ≤ 1 / 1000000000 := by
  have hsum := foldl_dadd_close scores 0 0 0 (by omega) hl (by simp) (by simp)
  simp only [Nat.zero_add, zero_add] at hsum
  obtain ⟨h1, h2⟩ := hsum
  have hpos : 0 < scores.length := List.length_pos.mpr hne
  have hn : (0 : ℚ) < (scores.length : ℚ) := by exact_mod_cast hpos
  have hn1 : (1 : ℚ) ≤ (scores.length : ℚ) := by exact_mod_cast hpos
  have hn2 : (scores.length : ℚ) ≤ 1000 := by exact_mod_cast hlen
  have hd1 : |doubleSum scores / (scores.length : ℚ) - scores.sum / (scores.length : ℚ)|
      ≤ 1 / 8589934592 := by
    rw [← sub_div, abs_div, abs_of_pos hn, div_le_iff₀ hn]
    rw [mul_comm]
    exact h1
  have hd2 : |scores.sum / (scores.length : ℚ)| ≤ 1000 := by
    rw [abs_div, abs_of_pos hn, div_le_iff₀ hn]
    rw [mul_comm]
    exact h2
  have a1 := abs_le.mp hd1
  have a2 := abs_le.mp hd2
  have hr := abs_le.mp (binary64_error_small (doubleSum scores / (scores.length : ℚ))
    (abs_le.mpr ⟨by linarith, by linarith⟩))
  unfold ddiv
  rw [abs_le]
  constructor <;> linarith

/-- C4 (counterexample): the result of `averageScore` is not always the sum of the scores
divided by their number, neither exactly nor within `1e-9`. Three complete vehicles
scoring 40, 30 and 30 have the mean 100/3, which is not a double, and the code returns
the double `4691249611844267 / 2 ^ 47` next to it. Three complete vehicles scoring
`-2 ^ 53`, -1 and -1 have the running sum `-2 ^ 53` after every addition, and the code
returns a value 5/6 away from their mean. -/
theorem averageScore_not_exact_mean :
    (GarageMonitor.averageScore
        { cars_ := [("A", { id_ := "A", rpm_ := some 0, engineLoad_ := some 0,
                            coolantTemp_ := some 120 }),
                    ("B", { id_ := "B", rpm_ := some 0, engineLoad_ := some 0,
                            coolantTemp_ := some 125 }),
                    ("C", { id_ := "C", rpm_ := some 0, engineLoad_ := some 0,
                            coolantTemp_ := some 125 })] }
        = some (4691249611844267 / 140737488355328)
      ∧ GarageMonitor.completeScores
        { cars_ := [("A", { id_ := "A", rpm_ := some 0, engineLoad_ := some 0,
                            coolantTemp_ := some 120 }),
                    ("B", { id_ := "B", rpm_ := some 0, engineLoad_ := some 0,
                            coolantTemp_ := some 125 }),
                    ("C", { id_ := "C", rpm_ := some 0, engineLoad_ := some 0,
                            coolantTemp_ := some 125 })] }
        = [40, 30, 30]
      ∧ GarageMonitor.averageScore
        { cars_ := [("A", { id_ := "A", rpm_ := some 0, engineLoad_ := some 0,
                            coolantTemp_ := some 120 }),
                    ("B", { id_ := "B", rpm_ := some 0, engineLoad_ := some 0,
                            coolantTemp_ := some 125 }),
                    ("C", { id_ := "C", rpm_ := some 0, engineLoad_ := some 0,
                            coolantTemp_ := some 125 })] }
        ≠ some (([40, 30, 30] : List ℚ).sum / 3))
    ∧ (GarageMonitor.averageScore
        { cars_ := [("A", { id_ := "A", rpm_ := some 0, engineLoad_ := some 18014398509482184,
                            coolantTemp_ := some 90 }),
                    ("B", { id_ := "B", rpm_ := some 0, engineLoad_ := some 202,
                            coolantTemp_ := some 90 }),
                    ("C", { id_ := "C", rpm_ := some 0, engineLoad_ := some 202,
                            coolantTemp_ := some 90 })] }
        = some (-(6004799503160661 / 2))
      ∧ GarageMonitor.completeScores
        { cars_ := [("A", { id_ := "A", rpm_ := some 0, engineLoad_ := some 18014398509482184,
                            coolantTemp_ := some 90 }),
                    ("B", { id_ := "B", rpm_ := some 0, engineLoad_ := some 202,
                            coolantTemp_ := some 90 }),
                    ("C", { id_ := "C", rpm_ := some 0, engineLoad_ := some 202,
                            coolantTemp_ := some 90 })] }
        = [-9007199254740992, -1, -1]
      ∧ (1 : ℚ) / 1000000000
        < |(-(6004799503160661 / 2) : ℚ)
            - ([-9007199254740992, -1, -1] : List ℚ).sum / 3|) := by
  refine ⟨⟨by decide!, by decide!, by decide!⟩, by decide!, by decide!, ?_⟩
  norm_num [abs_of_pos]

/-- C4 (amended): for every registry with fewer than `2^31` complete vehicles,
`averageScore` is absent if and only if no vehicle of the registry is complete, and every
complete vehicle has a score. When some vehicle is complete and the readings of the
complete vehicles have magnitude at most `2 ^ 900`, so that no operation overflows, the
result is the sum of the scores of exactly the complete vehicles (the incomplete
vehicles contribute nothing), added from 0 in key order in binary64, divided in binary64
by the number of complete vehicles; and with at most 1000 complete vehicles whose scores
have magnitude at most 1000 it is within `1e-9` of their arithmetic mean. -/
theorem averageScore_binary64_mean (m : GarageMonitor)
    (hsize : m.completeCars.length < 2 ^ 31) :
    (m.averageScore = none ↔ ∀ kv ∈ m.cars_, kv.2.hasAllRequired = false)
    ∧ m.completeCars.map Car.computePerformanceScore = m.completeScores.map some
    ∧ ((∃ kv ∈ m.cars_, kv.2.hasAllRequired = true) →
        (∀ c ∈ m.completeCars, ∀ k v, c.reading k = some v → |v| ≤ 2 ^ 900) →
        m.averageScore
          = some (ddiv (doubleSum m.completeScores) (m.completeCars.length : ℚ)))
    ∧ ((∃ kv ∈ m.cars_, kv.2.hasAllRequired = true) →
        (∀ c ∈ m.completeCars, ∀ k v, c.reading k = some v → |v| ≤ 2 ^ 900) →
        m.completeCars.length ≤ 1000 → (∀ s ∈ m.completeScores, |s| ≤ 1000) →
        ∃ avg, m.averageScore = some avg
          ∧ |avg - m.completeScores.sum / (m.completeCars.length : ℚ)| ≤ 1 / 1000000000) := by
  have havg := averageScore_eq m hsize
  have hempty := completeCars_length_eq_zero m
  have hsome : (∃ kv ∈ m.cars_, kv.2.hasAllRequired = true) →
      m.averageScore
        = some (ddiv (doubleSum m.completeScores) (m.completeCars.length : ℚ)) := by
    rintro ⟨kv, hkv, hall⟩
    have h0 : ¬ m.completeCars.length = 0 := by
      intro h0
      have := hempty.mp h0 kv hkv
      rw [hall] at this
      exact Bool.noConfusion this
    rw [havg, if_neg h0]
  have hlen : m.completeScores.length = m.completeCars.length := by
    have := congrArg List.length (completeScores_spec m)
    simpa using this.symm
  refine ⟨?_, completeScores_spec m, fun hex _ => hsome hex, ?_⟩
  · rw [havg, ← hempty]
    by_cases h0 : m.completeCars.length = 0
    · simp [h0]
    · simp [h0]
  · intro hex _ hle hbound
    refine ⟨_, hsome hex, ?_⟩
    have hne : m.completeScores ≠ [] := by
      intro hnil
      obtain ⟨kv, hkv, hall⟩ := hex
      have h0 : m.completeCars.length = 0 := by rw [← hlen, hnil]; rfl
      have := hempty.mp h0 kv hkv
      rw [hall] at this
      exact Bool.noConfusion this
    have h := average_close_to_mean m.completeScores hne (by rw [hlen]; exact hle) hbound
    rw [hlen] at h
    exact h

/-- The case of test 3: two complete vehicles scoring 70 and 30 average 50. -/
theorem averageScore_binary64_mean_witness :
    GarageMonitor.averageScore
        { cars_ := [("A", { id_ := "A", rpm_ := some 0, engineLoad_ := some 0,
                            coolantTemp_ := some 105 }),
                    ("B", { id_ := "B", rpm_ := some 0, engineLoad_ := some 0,
                            coolantTemp_ := some 125 })] }
      = some 50 :=
  ((averageScore_binary64_mean
      { cars_ := [("A", { id_ := "A", rpm_ := some 0, engineLoad_ := some 0,
                          coolantTemp_ := some 105 }),
                  ("B", { id_ := "B", rpm_ := some 0, engineLoad_ := some 0,
                          coolantTemp_ := some 125 })] }
      (by decide!)).2.2.1
    ⟨("A", { id_ := "A", rpm_ := some 0, engineLoad_ := some 0, coolantTemp_ := some 105 }),
      by simp, rfl⟩
    (by
      intro c hc k v hv
      simp [GarageMonitor.completeCars, Car.hasAllRequired] at hc
      rcases hc with rfl | rfl <;> cases k <;>
        simp [Car.reading, Car.rpm, Car.engineLoad, Car.coolantTemp] at hv <;>
        subst hv <;> norm_num)).trans (by decide!)

/-! ## Ingest: what one `addDiagnostic` does to the readings -/

/-- The readings of a car after `Car::addDiagnostic`: the reading of the kind of the
diagnostic is its value, the others are kept. -/
theorem car_reading_addDiagnostic (c : Car) (d : Diagnostic) (k : DiagnosticType)
    (hk : k ≠ DiagnosticType.Unknown) :
    (c.addDiagnostic d).reading k = if d.type_ = k then some d.value_ else c.reading k := by
  obtain ⟨cid, r, l, t⟩ := c
  obtain ⟨did, dt, dv⟩ := d
  cases dt <;> cases k <;>
    first
    | exact absurd rfl hk
    | rfl

/-- A new car has no reading. -/
theorem car_reading_new (id : String) (k : DiagnosticType) : (Car.new id).reading k = none := by
  cases k <;> rfl

/-- The sentinel kind has no reading. -/
theorem reading_unknown (m : GarageMonitor) (id : String) :
    m.reading id DiagnosticType.Unknown = none := by
  unfold GarageMonitor.reading
  cases mapFind m.cars_ id <;> rfl

/-- The readings of the registry after `addDiagnostic carId type value`. -/
theorem reading_addDiagnostic (m : GarageMonitor) (carId : String)
    (type : DiagnosticType) (value : ℚ) (id : String) (k : DiagnosticType)
    (hk : k ≠ DiagnosticType.Unknown) :
    (m.addDiagnostic carId type value).reading id k
      = if carId = id ∧ type = k then some value else m.reading id k := by
  by_cases hid : id = carId
  · subst hid
    unfold GarageMonitor.reading
    rw [mapFind_addDiagnostic_self]
    simp only [Option.some_bind, car_reading_addDiagnostic _ _ _ hk, true_and]
    by_cases ht : type = k
    · simp only [if_pos ht]
    · simp only [if_neg ht]
      cases mapFind m.cars_ id with
      | none => simp only [Option.getD_none, car_reading_new, Option.none_bind]
      | some c => simp only [Option.getD_some, Option.some_bind]
  · have hne : ¬ (carId = id ∧ type = k) := fun h => hid h.1.symm
    unfold GarageMonitor.reading
    rw [mapFind_addDiagnostic_ne _ _ _ _ _ hid, if_neg hne]

/-- Which ids are in the registry after `addDiagnostic carId`. -/
theorem hasCar_addDiagnostic (m : GarageMonitor) (carId : String)
    (type : DiagnosticType) (value : ℚ) (id : String) :
    (m.addDiagnostic carId type value).hasCar id = true ↔ (id = carId ∨ m.hasCar id = true) := by
  unfold GarageMonitor.hasCar
  by_cases hid : id = carId
  · subst hid
    rw [mapFind_addDiagnostic_self]
    simp
  · rw [mapFind_addDiagnostic_ne _ _ _ _ _ hid]
    simp [hid]

/-- One more call at the end of a sequence of ingests. -/
theorem ingestAll_append_singleton (m : GarageMonitor) (calls : List Diagnostic)
    (d : Diagnostic) :
    ingestAll m (calls ++ [d]) = (ingestAll m calls).addDiagnostic d.id_ d.type_ d.value_ := by
  simp [ingestAll, List.foldl_append]

/-- The last write of a sequence with one more call at its end. -/
theorem lastWrite_append_singleton (calls : List Diagnostic) (d : Diagnostic) (id : String)
    (k : DiagnosticType) :
    lastWrite (calls ++ [d]) id k
      = if d.id_ = id ∧ d.type_ = k then some d.value_ else lastWrite calls id k := by
  unfold lastWrite
  rw [List.filter_append]
  by_cases h : d.id_ = id ∧ d.type_ = k
  · simp [h, Diagnostic.getValue]
  · simp [h]

/-- The readings after a sequence of ingests on the empty registry are the last writes. -/
theorem reading_ingestAll (calls : List Diagnostic) (id : String) (k : DiagnosticType)
    (hk : k ≠ DiagnosticType.Unknown) :
    (ingestAll GarageMonitor.empty calls).reading id k = lastWrite calls id k := by
  induction calls using List.reverseRecOn with
  | nil => rfl
  | append_singleton calls d ih =>
    rw [ingestAll_append_singleton, lastWrite_append_singleton,
      reading_addDiagnostic _ _ _ _ _ _ hk, ih]

/-- A sequence with no call for `(id, k)` has no last write for it. -/
theorem lastWrite_eq_none (calls : List Diagnostic) (id : String) (k : DiagnosticType)
    (hno : ∀ d ∈ calls, ¬ (d.id_ = id ∧ d.type_ = k)) : lastWrite calls id k = none := by
  have hnil : calls.filter (fun d => d.id_ = id ∧ d.type_ = k) = [] := by
    rw [List.filter_eq_nil_iff]
    intro d hd
    have := hno d hd
    simp only [decide_eq_true_eq]
    exact this
  unfold lastWrite
  rw [hnil]
  rfl

/-- C6 (last write wins): after any sequence of `addDiagnostic` calls with kinds RPM,
EngineLoad or CoolantTemp on the empty registry, for every id and every kind the stored
reading of that kind of that vehicle is absent when the sequence has no call for
`(id, kind)`, and is otherwise the value of the last call of the sequence for
`(id, kind)`. -/
theorem last_write_wins (calls : List Diagnostic)
    (hcalls : ∀ d ∈ calls, d.type_ ≠ DiagnosticType.Unknown)
    (id : String) (k : DiagnosticType) :
    ((∀ d ∈ calls, ¬ (d.id_ = id ∧ d.type_ = k)) →
        (ingestAll GarageMonitor.empty calls).reading id k = none)
    ∧ (ingestAll GarageMonitor.empty calls).reading id k = lastWrite calls id k := by
  have hmain : (ingestAll GarageMonitor.empty calls).reading id k = lastWrite calls id k := by
    by_cases hk : k = DiagnosticType.Unknown
    · subst hk
      rw [reading_unknown, lastWrite_eq_none]
      intro d hd h
      exact hcalls d hd h.2
    · exact reading_ingestAll calls id k hk
  refine ⟨?_, hmain⟩
  intro hno
  rw [hmain, lastWrite_eq_none calls id k hno]

/-- Two RPM writes and one CoolantTemp write for CarX: the RPM reading is the second
RPM write, and CarX has no EngineLoad reading. -/
theorem last_write_wins_witness :
    (ingestAll GarageMonitor.empty
        [{ id_ := "CarX", type_ := DiagnosticType.RPM, value_ := 1000 },
         { id_ := "CarX", type_ := DiagnosticType.CoolantTemp, value_ := 95 },
         { id_ := "CarX", type_ := DiagnosticType.RPM, value_ := 3000 }]).reading
          "CarX" DiagnosticType.RPM = some 3000
    ∧ (ingestAll GarageMonitor.empty
        [{ id_ := "CarX", type_ := DiagnosticType.RPM, value_ := 1000 },
         { id_ := "CarX", type_ := DiagnosticType.CoolantTemp, value_ := 95 },
         { id_ := "CarX", type_ := DiagnosticType.RPM, value_ := 3000 }]).reading
          "CarX" DiagnosticType.EngineLoad = none :=
  ⟨(last_write_wins _ (by decide) "CarX" DiagnosticType.RPM).2.trans
      (by simp [lastWrite, Diagnostic.getValue]),
   (last_write_wins _ (by decide) "CarX" DiagnosticType.EngineLoad).1 (by decide)⟩

/-! ## Idempotence and frame of an ingest -/

/-- Two updates of the same entry are one update by the composition. -/
theorem mapModify_mapModify (l : List (String × Car)) (k : String) (f g : Car → Car) :
    mapModify (mapModify l k f) k g = mapModify l k (fun c => g (f c)) := by
  induction l with
  | nil => rfl
  | cons kv rest ih =>
    obtain ⟨k0, c⟩ := kv
    by_cases h : k0 = k
    · simp only [mapModify, if_pos h]
    · simp only [mapModify, if_neg h, ih]

/-- Applying the same diagnostic to a car twice is applying it once. -/
theorem car_addDiagnostic_idem (c : Car) (d : Diagnostic) :
    (c.addDiagnostic d).addDiagnostic d = c.addDiagnostic d := by
  obtain ⟨did, dt, dv⟩ := d
  cases dt <;> rfl

/-- Re-ingesting the same reading once more changes nothing. -/
theorem addDiagnostic_idem (m : GarageMonitor) (carId : String)
    (type : DiagnosticType) (value : ℚ) :
    (m.addDiagnostic carId type value).addDiagnostic carId type value
      = m.addDiagnostic carId type value := by
  have hfind := mapFind_addDiagnostic_self m carId type value
  generalize hm1 : m.addDiagnostic carId type value = m1 at hfind
  have hcars : (m1.addDiagnostic carId type value).cars_
      = mapModify m1.cars_ carId
          (fun car => car.addDiagnostic { id_ := carId, type_ := type, value_ := value }) := by
    unfold GarageMonitor.addDiagnostic
    simp only [hfind]
  have hm1cars : m1.cars_
      = mapModify
          (match mapFind m.cars_ carId with
            | none => mapEmplace m.cars_ carId (Car.new carId)
            | some _ => m.cars_)
          carId
          (fun car => car.addDiagnostic { id_ := carId, type_ := type, value_ := value }) := by
    rw [← hm1]
    rfl
  have hgoal : (m1.addDiagnostic carId type value).cars_ = m1.cars_ := by
    rw [hcars]
    conv_lhs => rw [hm1cars]
    rw [mapModify_mapModify]
    simp only [car_addDiagnostic_idem]
    exact hm1cars.symm
  cases hx : m1.addDiagnostic carId type value with
  | mk cars1 =>
    cases m1 with
    | mk cars0 =>
      rw [hx] at hgoal
      simp only at hgoal
      rw [hgoal]

/-- C7 (idempotence): for every registry state, id, kind and value, applying
`addDiagnostic id kind value` any number `n + 1 ≥ 1` of times in a row (twice when
`n = 1`) yields exactly the registry state of applying it once. -/
theorem addDiagnostic_idempotent (m : GarageMonitor) (id : String) (kind : DiagnosticType)
    (value : ℚ) (n : Nat) :
    (fun g : GarageMonitor => g.addDiagnostic id kind value)^[n + 1] m
      = m.addDiagnostic id kind value := by
  induction n with
  | zero => rfl
  | succ n ih =>
    rw [Function.iterate_succ_apply', ih]
    exact addDiagnostic_idem m id kind value

/-- C8 (frame of an ingest): `addDiagnostic id kind value` with a kind RPM, EngineLoad or
CoolantTemp sets that one reading of vehicle `id` and changes nothing else: the other
readings of vehicle `id` keep their previous presence and value, and for every other id
(ids are compared as they are written, so "car1" is another id than "Car1") the presence
in the registry, the stored car and all its readings are unchanged. -/
theorem addDiagnostic_frame (m : GarageMonitor) (id : String) (kind : DiagnosticType)
    (value : ℚ) (hkind : kind ≠ DiagnosticType.Unknown) :
    (m.addDiagnostic id kind value).reading id kind = some value
    ∧ (∀ k, k ≠ kind → (m.addDiagnostic id kind value).reading id k = m.reading id k)
    ∧ (∀ id', id' ≠ id →
        (m.addDiagnostic id kind value).hasCar id' = m.hasCar id'
        ∧ mapFind (m.addDiagnostic id kind value).cars_ id' = mapFind m.cars_ id'
        ∧ ∀ k, (m.addDiagnostic id kind value).reading id' k = m.reading id' k) := by
  refine ⟨?_, ?_, ?_⟩
  · rw [reading_addDiagnostic _ _ _ _ _ _ hkind]
    simp
  · intro k hk
    by_cases hu : k = DiagnosticType.Unknown
    · subst hu
      rw [reading_unknown, reading_unknown]
    · rw [reading_addDiagnostic _ _ _ _ _ _ hu]
      have hne : ¬ (id = id ∧ kind = k) := fun h => hk h.2.symm
      rw [if_neg hne]
  · intro id' hid
    have hfind := mapFind_addDiagnostic_ne m id id' kind value hid
    refine ⟨?_, hfind, ?_⟩
    · unfold GarageMonitor.hasCar
      rw [hfind]
    · intro k
      unfold GarageMonitor.reading
      rw [hfind]

/-- A CoolantTemp write to Car1 in a registry that holds Car1 (RPM 1000) and car1
(RPM 5): the RPM of Car1 and the whole of car1 are as before. -/
theorem addDiagnostic_frame_witness :
    ((ingestAll GarageMonitor.empty
        [{ id_ := "Car1", type_ := DiagnosticType.RPM, value_ := 1000 },
         { id_ := "car1", type_ := DiagnosticType.RPM, value_ := 5 }]).addDiagnostic
      "Car1" DiagnosticType.CoolantTemp 110).reading "Car1" DiagnosticType.RPM = some 1000
    ∧ ((ingestAll GarageMonitor.empty
        [{ id_ := "Car1", type_ := DiagnosticType.RPM, value_ := 1000 },
         { id_ := "car1", type_ := DiagnosticType.RPM, value_ := 5 }]).addDiagnostic
      "Car1" DiagnosticType.CoolantTemp 110).reading "car1" DiagnosticType.CoolantTemp
        = none :=
  have h := addDiagnostic_frame
    (ingestAll GarageMonitor.empty
        [{ id_ := "Car1", type_ := DiagnosticType.RPM, value_ := 1000 },
         { id_ := "car1", type_ := DiagnosticType.RPM, value_ := 5 }])
    "Car1" DiagnosticType.CoolantTemp 110 (by decide)
  ⟨(h.2.1 DiagnosticType.RPM (by decide)).trans
      ((reading_ingestAll _ "Car1" DiagnosticType.RPM (by decide)).trans
        (by simp [lastWrite, Diagnostic.getValue])),
   ((h.2.2 "car1" (by decide)).2.2 DiagnosticType.CoolantTemp).trans
      ((reading_ingestAll _ "car1" DiagnosticType.CoolantTemp (by decide)).trans
        (by simp [lastWrite]))⟩

/-! ## Completeness -/

/-- The flag `hasAll` of a status is `hasAllRequired` of the car. -/
theorem statusOfUnlocked_hasAll (car : Car) :
    (GarageMonitor.statusOfUnlocked car).hasAll = car.hasAllRequired := by
  cases hall : car.hasAllRequired with
  | false => rw [statusOfUnlocked_incomplete car hall]
  | true =>
    obtain ⟨s, hs⟩ := computePerformanceScore_isSome car hall
    rw [statusOfUnlocked_complete car s hall hs]

/-- A vehicle is reported complete exactly when its three readings are stored. -/
theorem hasAll_iff_readings (m : GarageMonitor) (id : String) :
    (m.statusOf id).hasAll = true ↔
      ((m.reading id DiagnosticType.RPM).isSome = true
        ∧ (m.reading id DiagnosticType.EngineLoad).isSome = true
        ∧ (m.reading id DiagnosticType.CoolantTemp).isSome = true) := by
  unfold GarageMonitor.statusOf GarageMonitor.reading
  cases mapFind m.cars_ id with
  | none => simp
  | some c =>
    simp only [statusOfUnlocked_hasAll, Option.some_bind, Car.reading, Car.rpm, Car.engineLoad,
      Car.coolantTemp, Car.hasAllRequired, Bool.and_eq_true, and_assoc]

/-- A reading is stored after a sequence of ingests on the empty registry exactly when
the sequence has a call for it. -/
theorem reading_isSome_iff (calls : List Diagnostic) (id : String) (k : DiagnosticType)
    (hk : k ≠ DiagnosticType.Unknown) :
    ((ingestAll GarageMonitor.empty calls).reading id k).isSome = true
      ↔ ∃ d ∈ calls, d.id_ = id ∧ d.type_ = k := by
  induction calls using List.reverseRecOn with
  | nil => simp [ingestAll, GarageMonitor.reading, GarageMonitor.empty, mapFind]
  | append_singleton calls d ih =>
    rw [ingestAll_append_singleton, reading_addDiagnostic _ _ _ _ _ _ hk]
    by_cases h : d.id_ = id ∧ d.type_ = k
    · rw [if_pos h]
      simp only [Option.isSome_some, true_iff]
      exact ⟨d, by simp, h⟩
    · rw [if_neg h, ih]
      constructor
      · rintro ⟨d', hd', hp⟩
        exact ⟨d', List.mem_append_left _ hd', hp⟩
      · rintro ⟨d', hd', hp⟩
        rcases List.mem_append.mp hd' with hin | hin
        · exact ⟨d', hin, hp⟩
        · rw [List.mem_singleton] at hin
          subst hin
          exact absurd hp h

/-- A stored reading stays stored under one more ingest. -/
theorem reading_isSome_addDiagnostic (m : GarageMonitor) (carId : String)
    (type : DiagnosticType) (value : ℚ) (id : String) (k : DiagnosticType)
    (h : (m.reading id k).isSome = true) :
    ((m.addDiagnostic carId type value).reading id k).isSome = true := by
  have hk : k ≠ DiagnosticType.Unknown := by
    intro e
    subst e
    rw [reading_unknown] at h
    exact Bool.noConfusion h
  rw [reading_addDiagnostic _ _ _ _ _ _ hk]
  split
  · rfl
  · exact h

/-- C9 (completeness): after any sequence of `addDiagnostic` calls on the empty registry
(of the kinds RPM, EngineLoad, CoolantTemp; calls of the sentinel kind change nothing
here), `statusOf(id).hasAll` is true if and only if the sequence has at least one RPM
call, at least one EngineLoad call and at least one CoolantTemp call for that id; and a
vehicle that is complete in any registry stays complete under every sequence of later
calls. -/
theorem hasAll_iff_all_kinds_ingested :
    (∀ (calls : List Diagnostic) (id : String),
      ((ingestAll GarageMonitor.empty calls).statusOf id).hasAll = true ↔
        ((∃ d ∈ calls, d.id_ = id ∧ d.type_ = DiagnosticType.RPM)
          ∧ (∃ d ∈ calls, d.id_ = id ∧ d.type_ = DiagnosticType.EngineLoad)
          ∧ (∃ d ∈ calls, d.id_ = id ∧ d.type_ = DiagnosticType.CoolantTemp)))
    ∧ (∀ (m : GarageMonitor) (later : List Diagnostic) (id : String),
        (m.statusOf id).hasAll = true → ((ingestAll m later).statusOf id).hasAll = true) := by
  constructor
  · intro calls id
    rw [hasAll_iff_readings, reading_isSome_iff calls id _ (by decide),
      reading_isSome_iff calls id _ (by decide), reading_isSome_iff calls id _ (by decide)]
  · intro m later id
    induction later using List.reverseRecOn with
    | nil => exact fun h => h
    | append_singleton later d ih =>
      intro h
      have h' := (hasAll_iff_readings _ _).mp (ih h)
      rw [ingestAll_append_singleton, hasAll_iff_readings]
      exact ⟨reading_isSome_addDiagnostic _ _ _ _ _ _ h'.1,
        reading_isSome_addDiagnostic _ _ _ _ _ _ h'.2.1,
        reading_isSome_addDiagnostic _ _ _ _ _ _ h'.2.2⟩

/-! ## Vehicle lifecycle -/

/-- A sequence of ingests that starts with the call `d`. -/
theorem ingestAll_cons (m : GarageMonitor) (d : Diagnostic) (calls : List Diagnostic) :
    ingestAll m (d :: calls) = ingestAll (m.addDiagnostic d.id_ d.type_ d.value_) calls := rfl

/-- The loop of `loadCSV` leaves the registry of the ingests of its accepted rows, made in
input order. -/
theorem foldl_loadCSVLine_gm (strtod : String → StrtodResult) (lines : List (List Char))
    (st : LoadState) :
    (lines.foldl (loadCSVLine strtod) st).gm
      = ingestAll st.gm (ingestedRows strtod st.lineNo lines) := by
  induction lines generalizing st with
  | nil => rfl
  | cons line rest ih =>
    rw [List.foldl_cons, ih, ingestedRows]
    dsimp only [loadCSVLine]
    cases parseLine strtod (st.lineNo + 1) ⟨line⟩ with
    | skip => rfl
    | error msg => rfl
    | row carId type val => rfl

/-- The registry after `loadCSV`, whether it returns or throws. -/
theorem loadCSV_gm (strtod : String → StrtodResult) (m : GarageMonitor) (input : String)
    (errors : List String) :
    (m.loadCSV strtod input errors).gm
      = ingestAll m (ingestedRows strtod 0 (splitLines input.data)) := by
  unfold GarageMonitor.loadCSV
  simp only
  split
  · exact foldl_loadCSVLine_gm strtod _ _
  · exact foldl_loadCSVLine_gm strtod _ _

/-- The ids in the registry after a sequence of ingests: those that were there and those
the calls name. -/
theorem hasCar_ingestAll (m : GarageMonitor) (calls : List Diagnostic) (id : String) :
    (ingestAll m calls).hasCar id = true
      ↔ (m.hasCar id = true ∨ id ∈ calls.map Diagnostic.getId) := by
  induction calls generalizing m with
  | nil => simp [ingestAll]
  | cons d rest ih =>
    rw [ingestAll_cons, ih, hasCar_addDiagnostic, List.map_cons,
      List.mem_cons, Diagnostic.getId]
    tauto

/-- The ids in the registry after a sequence of calls of the public interface. -/
theorem hasCar_runOps (strtod : String → StrtodResult) (m : GarageMonitor) (ops : List Op)
    (id : String) :
    (runOps strtod m ops).hasCar id = true
      ↔ (m.hasCar id = true ∨ id ∈ ingestedIds strtod ops) := by
  induction ops generalizing m with
  | nil => simp [runOps, ingestedIds]
  | cons op rest ih =>
    have hstep : runOps strtod m (op :: rest) = runOps strtod (op.apply strtod m) rest := rfl
    rw [hstep, ih]
    cases op with
    | addDiagnostic carId type value =>
      simp only [Op.apply, ingestedIds, hasCar_addDiagnostic, List.mem_cons]
      tauto
    | loadCSV input =>
      simp only [Op.apply, ingestedIds, loadCSV_gm, hasCar_ingestAll, List.mem_append]
      tauto
    | statusOf carId => simp only [Op.apply, ingestedIds]
    | averageScore => simp only [Op.apply, ingestedIds]
    | hasCar id' => simp only [Op.apply, ingestedIds]
    | printStatus => simp only [Op.apply, ingestedIds]

/-- C10 (vehicle lifecycle): starting from the empty registry, after any sequence of
`addDiagnostic`, `loadCSV`, `statusOf`, `averageScore`, `hasCar` and `printStatus` calls,
`hasCar(id)` is true exactly for the ids named by an ingest of the sequence (an
`addDiagnostic` call or a row ingested by a `loadCSV`); an ingest creates its vehicle;
no sequence of calls removes a vehicle; and the four queries leave the registry as it
is. -/
theorem hasCar_iff_ingested :
    (∀ (strtod : String → StrtodResult) (ops : List Op) (id : String),
      (runOps strtod GarageMonitor.empty ops).hasCar id = true ↔ id ∈ ingestedIds strtod ops)
    ∧ (∀ (m : GarageMonitor) (id : String) (type : DiagnosticType) (value : ℚ),
        (m.addDiagnostic id type value).hasCar id = true)
    ∧ (∀ (strtod : String → StrtodResult) (m : GarageMonitor) (ops : List Op) (id : String),
        m.hasCar id = true → (runOps strtod m ops).hasCar id = true)
    ∧ (∀ (strtod : String → StrtodResult) (m : GarageMonitor) (id : String),
        Op.apply strtod m (Op.statusOf id) = m
        ∧ Op.apply strtod m Op.averageScore = m
        ∧ Op.apply strtod m (Op.hasCar id) = m
        ∧ Op.apply strtod m Op.printStatus = m) := by
  refine ⟨?_, ?_, ?_, ?_⟩
  · intro strtod ops id
    rw [hasCar_runOps]
    simp [GarageMonitor.hasCar, GarageMonitor.empty, mapFind]
  · intro m id type value
    rw [hasCar_addDiagnostic]
    exact Or.inl rfl
  · intro strtod m ops id h
    rw [hasCar_runOps]
    exact Or.inl h
  · intro strtod m id
    exact ⟨rfl, rfl, rfl, rfl⟩

/-- C5: for every registry built from the empty one by calls of the public interface
and every id that no ingest has named, `statusOf(id)` returns a status (the function is
total) with `hasAll = false`, an empty alert, which is not the sensor-failure alert, and
no score. -/
theorem statusOf_never_ingested (strtod : String → StrtodResult) (ops : List Op)
    (id : String) (hnew : id ∉ ingestedIds strtod ops) :
    (runOps strtod GarageMonitor.empty ops).statusOf id
        = { hasAll := false, score := none, alert := "" }
    ∧ ((runOps strtod GarageMonitor.empty ops).statusOf id).alert
        ≠ "Sensor Failure Detected" := by
  have hcar : (runOps strtod GarageMonitor.empty ops).hasCar id = false := by
    cases h : (runOps strtod GarageMonitor.empty ops).hasCar id with
    | false => rfl
    | true =>
      rw [hasCar_runOps] at h
      rcases h with h | h
      · simp [GarageMonitor.hasCar, GarageMonitor.empty, mapFind] at h
      · exact absurd h hnew
  have hfind : mapFind (runOps strtod GarageMonitor.empty ops).cars_ id = none := by
    unfold GarageMonitor.hasCar at hcar
    cases hf : mapFind (runOps strtod GarageMonitor.empty ops).cars_ id with
    | none => rfl
    | some c => rw [hf] at hcar; exact Bool.noConfusion hcar
  have hst : (runOps strtod GarageMonitor.empty ops).statusOf id
      = { hasAll := false, score := none, alert := "" } := by
    unfold GarageMonitor.statusOf
    rw [hfind]
  refine ⟨hst, ?_⟩
  rw [hst]
  decide

/-- After CarX alone was ingested and queried, the status of CarY is the default one. -/
theorem statusOf_never_ingested_witness :
    (runOps (fun _ => { val := 0, consumed := 0, erange := false }) GarageMonitor.empty
        [Op.addDiagnostic "CarX" DiagnosticType.RPM 6500, Op.statusOf "CarY"]).statusOf "CarY"
      = { hasAll := false, score := none, alert := "" } :=
  (statusOf_never_ingested (fun _ => { val := 0, consumed := 0, erange := false })
    [Op.addDiagnostic "CarX" DiagnosticType.RPM 6500, Op.statusOf "CarY"] "CarY"
    (by simp [ingestedIds])).1

/-! ## The key order of the map is kept -/

/-- An entry of the map after `emplace` is the new entry or an old one. -/
theorem mem_mapEmplace (l : List (String × Car)) (k : String) (c : Car) (x : String × Car)
    (hx : x ∈ mapEmplace l k c) : x = (k, c) ∨ x ∈ l := by
  induction l with
  | nil =>
    simp only [mapEmplace, List.mem_singleton] at hx
    exact Or.inl hx
  | cons kv rest ih =>
    obtain ⟨k0, c0⟩ := kv
    by_cases h1 : k < k0
    · simp only [mapEmplace, if_pos h1, List.mem_cons] at hx
      rcases hx with hx | hx | hx
      · exact Or.inl hx
      · exact Or.inr (hx ▸ List.mem_cons_self _ _)
      · exact Or.inr (List.mem_cons_of_mem _ hx)
    · by_cases h2 : k0 < k
      · simp only [mapEmplace, if_neg h1, if_pos h2, List.mem_cons] at hx
        rcases hx with hx | hx
        · exact Or.inr (hx ▸ List.mem_cons_self _ _)
        · rcases ih hx with h | h
          · exact Or.inl h
          · exact Or.inr (List.mem_cons_of_mem _ h)
      · simp only [mapEmplace, if_neg h1, if_neg h2] at hx
        exact Or.inr hx

/-- The insertion `emplace` keeps the keys strictly increasing. -/
theorem mapEmplace_sorted (l : List (String × Car)) (k : String) (c : Car)
    (hl : l.Pairwise (fun a b => a.1 < b.1)) :
    (mapEmplace l k c).Pairwise (fun a b => a.1 < b.1) := by
  induction l with
  | nil => simp [mapEmplace]
  | cons kv rest ih =>
    obtain ⟨k0, c0⟩ := kv
    rw [List.pairwise_cons] at hl
    by_cases h1 : k < k0
    · simp only [mapEmplace, if_pos h1]
      refine List.pairwise_cons.mpr ⟨?_, List.pairwise_cons.mpr hl⟩
      intro x hx
      rcases List.mem_cons.mp hx with hx | hx
      · rw [hx]
        exact h1
      · exact lt_trans h1 (hl.1 x hx)
    · by_cases h2 : k0 < k
      · simp only [mapEmplace, if_neg h1, if_pos h2]
        refine List.pairwise_cons.mpr ⟨?_, ih hl.2⟩
        intro x hx
        rcases mem_mapEmplace rest k c x hx with hx | hx
        · rw [hx]
          exact h2
        · exact hl.1 x hx
      · simp only [mapEmplace, if_neg h1, if_neg h2]
        exact List.pairwise_cons.mpr hl

/-- The update of an entry leaves the keys of the map as they are. -/
theorem mapModify_keys (l : List (String × Car)) (k : String) (f : Car → Car) :
    (mapModify l k f).map Prod.fst = l.map Prod.fst := by
  induction l with
  | nil => rfl
  | cons kv rest ih =>
    obtain ⟨k0, c0⟩ := kv
    by_cases h : k0 = k
    · simp only [mapModify, if_pos h, List.map_cons]
    · simp only [mapModify, if_neg h, List.map_cons, ih]

/-- The invariant of the map, read on the list of keys. -/
theorem WF_iff_keys (m : GarageMonitor) :
    m.WF ↔ (m.cars_.map Prod.fst).Pairwise (fun a b => a < b) := by
  unfold GarageMonitor.WF
  rw [List.pairwise_map]

/-- The empty registry is a well-formed map. -/
theorem empty_WF : GarageMonitor.empty.WF := List.Pairwise.nil

/-- The method `addDiagnostic` keeps the map well formed. -/
theorem addDiagnostic_WF (m : GarageMonitor) (carId : String) (type : DiagnosticType)
    (value : ℚ) (hm : m.WF) : (m.addDiagnostic carId type value).WF := by
  rw [WF_iff_keys]
  unfold GarageMonitor.addDiagnostic
  simp only [mapModify_keys]
  rw [List.pairwise_map]
  cases mapFind m.cars_ carId with
  | none => exact mapEmplace_sorted _ _ _ hm
  | some c => exact hm

/-- Every registry built from the empty one by ingests is a well-formed map. -/
theorem ingestAll_WF (m : GarageMonitor) (calls : List Diagnostic) (hm : m.WF) :
    (ingestAll m calls).WF := by
  induction calls generalizing m with
  | nil => exact hm
  | cons d rest ih =>
    rw [ingestAll_cons]
    exact ih _ (addDiagnostic_WF m _ _ _ hm)

/-- Every call of the public interface keeps the map well formed. -/
theorem runOps_WF (strtod : String → StrtodResult) (m : GarageMonitor) (ops : List Op)
    (hm : m.WF) : (runOps strtod m ops).WF := by
  induction ops generalizing m with
  | nil => exact hm
  | cons op rest ih =>
    have hstep : runOps strtod m (op :: rest) = runOps strtod (op.apply strtod m) rest := rfl
    rw [hstep]
    apply ih
    cases op with
    | addDiagnostic carId type value => exact addDiagnostic_WF m _ _ _ hm
    | loadCSV input =>
      simp only [Op.apply, loadCSV_gm]
      exact ingestAll_WF m _ hm
    | statusOf carId => exact hm
    | averageScore => exact hm
    | hasCar id' => exact hm
    | printStatus => exact hm

/-! ## Bulk load: count, errors and exception -/

/-- The state of the loop of `loadCSV` after a list of lines: the registry of the
ingested rows, one message per rejected line, the number of ingested rows and the number
of lines read. -/
theorem foldl_loadCSVLine_state (strtod : String → StrtodResult) (lines : List (List Char))
    (st : LoadState) :
    lines.foldl (loadCSVLine strtod) st
      = { gm := ingestAll st.gm (ingestedRows strtod st.lineNo lines),
          errors := st.errors ++ (rejectedLines strtod st.lineNo lines).map Prod.snd,
          count := st.count + (ingestedRows strtod st.lineNo lines).length,
          lineNo := st.lineNo + lines.length } := by
  induction lines generalizing st with
  | nil => simp [ingestedRows, rejectedLines, ingestAll]
  | cons line rest ih =>
    rw [List.foldl_cons, ih, ingestedRows, rejectedLines]
    dsimp only [loadCSVLine]
    cases parseLine strtod (st.lineNo + 1) ⟨line⟩ with
    | skip => simp [Nat.add_assoc, Nat.add_comm 1]
    | error msg => simp [Nat.add_assoc, Nat.add_comm 1]
    | row carId type val => simp [ingestAll_cons, Nat.add_assoc, Nat.add_comm 1]

/-- The count or exception of `loadCSV`, by the number of ingested rows. -/
theorem loadCSV_result (strtod : String → StrtodResult) (m : GarageMonitor) (input : String)
    (errors : List String) :
    (m.loadCSV strtod input errors).result
      = if (ingestedRows strtod 0 (splitLines input.data)).length = 0
        then Except.error "Empty CSV: no valid data rows."
        else Except.ok (ingestedRows strtod 0 (splitLines input.data)).length := by
  unfold GarageMonitor.loadCSV
  simp only [foldl_loadCSVLine_state, Nat.zero_add]
  split <;> rfl

/-- The error list after `loadCSV`: the caller's list, then one message per rejected
line. -/
theorem loadCSV_errors (strtod : String → StrtodResult) (m : GarageMonitor) (input : String)
    (errors : List String) :
    (m.loadCSV strtod input errors).errors
      = errors ++ (rejectedLines strtod 0 (splitLines input.data)).map Prod.snd := by
  unfold GarageMonitor.loadCSV
  simp only [foldl_loadCSVLine_state]
  split <;> rfl

/-- C11: `loadCSV` throws if and only if no line of the input was ingested, and returns
normally (with the number of ingested lines) whenever at least one line is ingested. The
empty input throws, and so does an input made only of a blank line, a comment line, a
line without separator and a line of unknown type, whatever `strtod` does. -/
theorem loadCSV_throws_iff_nothing_ingested :
    (∀ (strtod : String → StrtodResult) (m : GarageMonitor) (input : String)
        (errors : List String),
      ((∃ what, (m.loadCSV strtod input errors).result = Except.error what)
          ↔ ingestedRows strtod 0 (splitLines input.data) = [])
      ∧ (ingestedRows strtod 0 (splitLines input.data) ≠ [] →
          (m.loadCSV strtod input errors).result
            = Except.ok (ingestedRows strtod 0 (splitLines input.data)).length))
    ∧ (∀ (strtod : String → StrtodResult) (m : GarageMonitor) (errors : List String),
        (m.loadCSV strtod "" errors).result
          = Except.error "Empty CSV: no valid data rows.")
    ∧ (∀ (strtod : String → StrtodResult) (m : GarageMonitor) (errors : List String),
        (m.loadCSV strtod "  \n# note\nCar1 RPM 100\nCar1,Speed,5\n" errors).result
          = Except.error "Empty CSV: no valid data rows.") := by
  refine ⟨?_, ?_, ?_⟩
  · intro strtod m input errors
    rw [loadCSV_result]
    constructor
    · by_cases h0 : (ingestedRows strtod 0 (splitLines input.data)).length = 0
      · simp only [if_pos h0, Except.error.injEq, exists_eq', true_iff]
        exact List.length_eq_zero.mp h0
      · simp only [if_neg h0, false_iff, exists_false, reduceCtorEq]
        intro h
        exact h0 (List.length_eq_zero.mpr h)
    · intro hne
      have h0 : ¬ (ingestedRows strtod 0 (splitLines input.data)).length = 0 :=
        fun h => hne (List.length_eq_zero.mp h)
      rw [if_neg h0]
  · intro strtod m errors
    rw [loadCSV_result]
    rfl
  · intro strtod m errors
    rw [loadCSV_result]
    have hrows : ingestedRows strtod 0
        (splitLines ("  \n# note\nCar1 RPM 100\nCar1,Speed,5\n" : String).data) = [] := by
      rfl
    rw [hrows]
    rfl

/-- A rejected line changes only the error list (and the line counter): the registry and
the count stay as they are. -/
theorem loadCSVLine_of_error (strtod : String → StrtodResult) (st : LoadState)
    (line : List Char) (msg : String)
    (h : parseLine strtod (st.lineNo + 1) ⟨line⟩ = LineOutcome.error msg) :
    loadCSVLine strtod st line
      = { gm := st.gm, errors := st.errors ++ [msg], count := st.count,
          lineNo := st.lineNo + 1 } := by
  dsimp only [loadCSVLine]
  rw [h]

/-! ## Lines: trimming, blank lines and comments -/

/-- Dropping a prefix that satisfies `p` from a list that ends in an element that does
not. -/
theorem dropWhile_append_singleton (p : Char → Bool) (a : List Char) (x : Char)
    (hx : p x = false) : (a ++ [x]).dropWhile p = a.dropWhile p ++ [x] := by
  induction a with
  | nil => simp [List.dropWhile, hx]
  | cons c cs ih =>
    by_cases hc : p c = true
    · simp only [List.cons_append, List.dropWhile_cons, hc, if_true, ih]
    · simp only [List.cons_append, List.dropWhile_cons, hc, if_false, Bool.false_eq_true]

/-- The first element left by `dropWhile` does not satisfy the predicate. -/
theorem dropWhile_head_not (p : Char → Bool) (l : List Char) (x : Char) (t : List Char)
    (h : l.dropWhile p = x :: t) : p x = false := by
  induction l with
  | nil => simp at h
  | cons c cs ih =>
    by_cases hc : p c = true
    · simp only [List.dropWhile_cons, hc, if_true] at h
      exact ih h
    · simp only [List.dropWhile_cons, hc, if_false, Bool.false_eq_true, List.cons.injEq] at h
      rw [← h.1]
      simpa using hc

/-- The trimmed text starts where the leading white space ends: it is empty when the
text is all white space, and otherwise begins with the first character that is not white
space. -/
theorem trim_data_cases (s : String) :
    (s.data.dropWhile isspace = [] ∧ (trim s).data = [])
    ∨ (∃ x t u, s.data.dropWhile isspace = x :: t ∧ isspace x = false
        ∧ (trim s).data = x :: u) := by
  cases h : s.data.dropWhile isspace with
  | nil =>
    left
    simp [trim, h]
  | cons x t =>
    right
    have hx := dropWhile_head_not isspace s.data x t h
    refine ⟨x, t, ((t.reverse).dropWhile isspace).reverse, rfl, hx, ?_⟩
    simp only [trim, h, List.reverse_cons, dropWhile_append_singleton isspace _ x hx,
      List.reverse_append, List.reverse_singleton, List.singleton_append, List.reverse_nil,
      List.nil_append, List.cons_append]

/-- Every character of the trimmed text is a character of the text. -/
theorem mem_trim (s : String) (c : Char) (hc : c ∈ (trim s).data) : c ∈ s.data := by
  simp only [trim, List.mem_reverse] at hc
  have h1 := (List.dropWhile_sublist isspace).subset hc
  rw [List.mem_reverse] at h1
  exact (List.dropWhile_sublist isspace).subset h1

/-- The two first `continue`s of the loop of `loadCSV` are taken exactly by the blank
lines and the comment lines. -/
theorem parseLine_eq_skip_iff (strtod : String → StrtodResult) (lineNo : Nat)
    (line : List Char) :
    parseLine strtod lineNo ⟨line⟩ = LineOutcome.skip ↔ isBlankOrComment line = true := by
  have hne : ∀ (raw : List Char) (x : Char) (u : List Char), raw = x :: u →
      (match getline raw (Char.ofNat 44) with
        | none => LineOutcome.error ("Line " ++ toString lineNo ++ ": missing CarId")
        | some (carId, rest1) =>
          match getline rest1 (Char.ofNat 44) with
          | none => LineOutcome.error ("Line " ++ toString lineNo ++ ": missing Type")
          | some (typeStr, rest2) =>
            let valueStr : String :=
              match getline rest2 (Char.ofNat 44) with
              | none => ""
              | some (v, _) => v
            let carId := trim carId
            let typeStr := trim typeStr
            let valueStr := trim valueStr
            let type := diagnosticTypeFromString typeStr
            if type = DiagnosticType.Unknown then
              LineOutcome.error
                ("Line " ++ toString lineNo ++ ": unknown Type " ++ "\x27" ++ typeStr ++ "\x27")
            else
              let r := strtod valueStr
              if valueStr.data.isEmpty || r.consumed == 0 || r.erange then
                LineOutcome.error
                  ("Line " ++ toString lineNo ++ ": invalid Value " ++ "\x27" ++ valueStr
                    ++ "\x27")
              else LineOutcome.row carId type r.val) ≠ LineOutcome.skip := by
    intro raw x u _
    split
    · exact fun h => LineOutcome.noConfusion h
    · split
      · exact fun h => LineOutcome.noConfusion h
      · dsimp only
        split
        · exact fun h => LineOutcome.noConfusion h
        · split
          · exact fun h => LineOutcome.noConfusion h
          · exact fun h => LineOutcome.noConfusion h
  unfold parseLine isBlankOrComment
  rcases trim_data_cases ⟨line⟩ with ⟨hd, ht⟩ | ⟨x, t, u, hd, hx, ht⟩
  · simp only at hd
    simp [hd, ht]
  · simp only at hd
    simp only [hd, ht, List.isEmpty_cons, Bool.false_eq_true, if_false, List.head?_cons,
      Option.some.injEq, beq_iff_eq]
    by_cases hc : x = Char.ofNat 35
    · simp [hc]
    · simp only [if_neg hc, hc, iff_false]
      rw [← ht]
      exact hne (trim ⟨line⟩).data x u ht

/-- Every message of a rejected line starts with the number of the line. -/
theorem parseLine_error_prefix (strtod : String → StrtodResult) (lineNo : Nat) (line : String)
    (msg : String) (h : parseLine strtod lineNo line = LineOutcome.error msg) :
    ∃ what, msg = "Line " ++ toString lineNo ++ ": " ++ what := by
  unfold parseLine at h
  dsimp only at h
  split at h
  · exact LineOutcome.noConfusion h
  · split at h
    · exact LineOutcome.noConfusion h
    · split at h
      · injection h with h
        exact ⟨"missing CarId", by rw [← h]; simp [String.append_assoc]⟩
      · split at h
        · injection h with h
          exact ⟨"missing Type", by rw [← h]; simp [String.append_assoc]⟩
        · split at h
          · injection h with h
            exact ⟨_, by rw [← h]; simp only [String.append_assoc]; rfl⟩
          · split at h
            · injection h with h
              exact ⟨_, by rw [← h]; simp only [String.append_assoc]; rfl⟩
            · exact LineOutcome.noConfusion h

/-- An entry of the list of rejected lines is the number and the message of a line of the
input: its number counts every line before it, blank and comment lines included. -/
theorem rejectedLines_mem (strtod : String → StrtodResult) (k : Nat) (lines : List (List Char))
    (n : Nat) (msg : String) (h : (n, msg) ∈ rejectedLines strtod k lines) :
    k < n ∧ ∃ line, lines[n - k - 1]? = some line
      ∧ parseLine strtod n ⟨line⟩ = LineOutcome.error msg := by
  induction lines generalizing k with
  | nil => simp [rejectedLines] at h
  | cons line rest ih =>
    have hrest : (n, msg) ∈ rejectedLines strtod (k + 1) rest →
        k < n ∧ ∃ line', (line :: rest)[n - k - 1]? = some line'
          ∧ parseLine strtod n ⟨line'⟩ = LineOutcome.error msg := by
      intro hm
      obtain ⟨hlt, line', hget, hp⟩ := ih (k + 1) hm
      refine ⟨by omega, line', ?_, hp⟩
      have e : n - k - 1 = (n - (k + 1) - 1) + 1 := by omega
      rw [e, List.getElem?_cons_succ]
      exact hget
    rw [rejectedLines] at h
    cases hp : parseLine strtod (k + 1) ⟨line⟩ with
    | skip =>
      rw [hp] at h
      exact hrest h
    | row carId type val =>
      rw [hp] at h
      exact hrest h
    | error msg' =>
      rw [hp] at h
      rcases List.mem_cons.mp h with heq | hm
      · injection heq with h1 h2
        subst h1 h2
        refine ⟨by omega, line, ?_, hp⟩
        simp
      · exact hrest hm

/-- The rejected lines are listed in strictly increasing order of line number. -/
theorem rejectedLines_sorted (strtod : String → StrtodResult) (k : Nat)
    (lines : List (List Char)) :
    (rejectedLines strtod k lines).Pairwise (fun a b => a.1 < b.1) := by
  induction lines generalizing k with
  | nil => exact List.Pairwise.nil
  | cons line rest ih =>
    rw [rejectedLines]
    cases parseLine strtod (k + 1) ⟨line⟩ with
    | skip => exact ih (k + 1)
    | row carId type val => exact ih (k + 1)
    | error msg' =>
      refine List.pairwise_cons.mpr ⟨?_, ih (k + 1)⟩
      intro b hb
      exact (rejectedLines_mem strtod (k + 1) rest b.1 b.2 hb).1

/-- Every line that is neither blank nor a comment is either ingested or rejected. -/
theorem ingested_add_rejected (strtod : String → StrtodResult) (k : Nat)
    (lines : List (List Char)) :
    (ingestedRows strtod k lines).length + (rejectedLines strtod k lines).length
      = (lines.filter (fun l => !isBlankOrComment l)).length := by
  induction lines generalizing k with
  | nil => rfl
  | cons line rest ih =>
    rw [ingestedRows, rejectedLines, List.filter_cons]
    have hskip := parseLine_eq_skip_iff strtod (k + 1) line
    cases hp : parseLine strtod (k + 1) ⟨line⟩ with
    | skip =>
      rw [hp] at hskip
      simp only [hskip.mp rfl, Bool.not_true, Bool.false_eq_true, if_false]
      exact ih (k + 1)
    | row carId type val =>
      rw [hp] at hskip
      have hb : isBlankOrComment line = false := by
        cases hb : isBlankOrComment line with
        | false => rfl
        | true => exact LineOutcome.noConfusion (hskip.mpr hb)
      simp only [hb, Bool.not_false, if_true, List.length_cons]
      have := ih (k + 1)
      omega
    | error msg' =>
      rw [hp] at hskip
      have hb : isBlankOrComment line = false := by
        cases hb : isBlankOrComment line with
        | false => rfl
        | true => exact LineOutcome.noConfusion (hskip.mpr hb)
      simp only [hb, Bool.not_false, if_true, List.length_cons]
      have := ih (k + 1)
      omega

/-- C17 (result of a bulk load): the count `loadCSV` returns is the number of lines it
ingested; the error list grows by exactly one entry per rejected line, in strictly
increasing order of line number, each entry being the message of the line at that 1-based
position of the input (blank and comment lines count in the numbering) and starting with
that number; blank lines and lines whose first character after the white space is `#`
give neither a row nor an error, so that the count plus the number of new errors is the
number of lines that are neither blank nor comments. -/
theorem loadCSV_count_and_errors (strtod : String → StrtodResult) (m : GarageMonitor)
    (input : String) (errors : List String) :
    (∀ n, (m.loadCSV strtod input errors).result = Except.ok n →
        n = (ingestedRows strtod 0 (splitLines input.data)).length)
    ∧ (m.loadCSV strtod input errors).errors
        = errors ++ (rejectedLines strtod 0 (splitLines input.data)).map Prod.snd
    ∧ (rejectedLines strtod 0 (splitLines input.data)).Pairwise (fun a b => a.1 < b.1)
    ∧ (∀ n msg, (n, msg) ∈ rejectedLines strtod 0 (splitLines input.data) →
        1 ≤ n
        ∧ (∃ line, (splitLines input.data)[n - 1]? = some line
            ∧ parseLine strtod n ⟨line⟩ = LineOutcome.error msg)
        ∧ ∃ what, msg = "Line " ++ toString n ++ ": " ++ what)
    ∧ (∀ n line, parseLine strtod n ⟨line⟩ = LineOutcome.skip ↔ isBlankOrComment line = true)
    ∧ (ingestedRows strtod 0 (splitLines input.data)).length
        + (rejectedLines strtod 0 (splitLines input.data)).length
        = ((splitLines input.data).filter (fun l => !isBlankOrComment l)).length := by
  refine ⟨?_, loadCSV_errors strtod m input errors, rejectedLines_sorted strtod 0 _, ?_,
    fun n line => parseLine_eq_skip_iff strtod n line, ingested_add_rejected strtod 0 _⟩
  · intro n hn
    rw [loadCSV_result] at hn
    split at hn
    · exact Except.noConfusion hn
    · injection hn with hn
      exact hn.symm
  · intro n msg hmem
    obtain ⟨hlt, line, hget, hp⟩ := rejectedLines_mem strtod 0 _ n msg hmem
    refine ⟨hlt, ⟨line, ?_, hp⟩, parseLine_error_prefix strtod n ⟨line⟩ msg hp⟩
    simpa using hget

/-- The numbering of the messages on an input with a comment line, a blank line, a valid
row, a row of unknown type and a line without separator. -/
theorem loadCSV_numbering_example :
    (GarageMonitor.empty.loadCSV strtodModel
        "# fleet\n\nCar1,RPM,1000\nCar1,Speed,3\nCar1 RPM 7\n" []).errors
      = ["Line 4: unknown Type \x27Speed\x27", "Line 5: missing Type"]
    ∧ ingestedRows strtodModel 0
        (splitLines ("# fleet\n\nCar1,RPM,1000\nCar1,Speed,3\nCar1 RPM 7\n" : String).data)
      = [{ id_ := "Car1", type_ := DiagnosticType.RPM, value_ := 1000 }] := by
  constructor
  · rw [loadCSV_errors]
    decide!
  · decide!

/-! ## Lines without a separator -/

/-- Reading up to a delimiter that does not occur reads everything. -/
theorem getline_no_delim (x : Char) (u : List Char) (delim : Char)
    (h : ∀ c ∈ x :: u, c ≠ delim) : getline (x :: u) delim = some (⟨x :: u⟩, []) := by
  have hall : ∀ c ∈ x :: u, (fun c => c != delim) c = true := by
    intro c hc
    simpa using h c hc
  have htake : (x :: u).takeWhile (fun c => c != delim) = x :: u :=
    List.takeWhile_eq_self_iff.mpr hall
  have hdrop : (x :: u).dropWhile (fun c => c != delim) = [] :=
    List.dropWhile_eq_nil_iff.mpr hall
  simp only [getline, htake, hdrop, List.drop_nil]

/-- C15: a line that is neither blank nor a comment and has no comma is rejected with
the missing-field message "missing Type" carrying the number of the line; nothing of it
is ingested (the registry and the count stay as they are), and the loop goes on with the
following lines. -/
theorem loadCSV_line_without_separator (strtod : String → StrtodResult) (st : LoadState)
    (line : List Char) (hline : isBlankOrComment line = false)
    (hcomma : ∀ c ∈ line, c ≠ Char.ofNat 44) :
    parseLine strtod (st.lineNo + 1) ⟨line⟩
        = LineOutcome.error ("Line " ++ toString (st.lineNo + 1) ++ ": missing Type")
    ∧ loadCSVLine strtod st line
        = { gm := st.gm,
            errors := st.errors ++ ["Line " ++ toString (st.lineNo + 1) ++ ": missing Type"],
            count := st.count, lineNo := st.lineNo + 1 }
    ∧ ∀ rest : List (List Char),
        (line :: rest).foldl (loadCSVLine strtod) st
          = rest.foldl (loadCSVLine strtod)
              { gm := st.gm,
                errors := st.errors
                  ++ ["Line " ++ toString (st.lineNo + 1) ++ ": missing Type"],
                count := st.count, lineNo := st.lineNo + 1 } := by
  have hparse : parseLine strtod (st.lineNo + 1) ⟨line⟩
      = LineOutcome.error ("Line " ++ toString (st.lineNo + 1) ++ ": missing Type") := by
    rcases trim_data_cases ⟨line⟩ with ⟨hd, _⟩ | ⟨x, t, u, hd, hx, ht⟩
    · simp only at hd
      simp [isBlankOrComment, hd] at hline
    · simp only at hd
      have hx35 : ¬ x = Char.ofNat 35 := by
        intro e
        simp [isBlankOrComment, hd, e] at hline
      have hnc : ∀ c ∈ x :: u, c ≠ Char.ofNat 44 := by
        intro c hc
        rw [← ht] at hc
        exact hcomma c (mem_trim ⟨line⟩ c hc)
      unfold parseLine
      simp only [ht, List.isEmpty_cons, Bool.false_eq_true, if_false, List.head?_cons,
        Option.some.injEq, if_neg hx35, getline_no_delim x u _ hnc]
      rfl
  have hstep := loadCSVLine_of_error strtod st line _ hparse
  refine ⟨hparse, hstep, ?_⟩
  intro rest
  rw [List.foldl_cons, hstep]

/-- The line "Car1 RPM 7" read as line 5 after one ingested row: the message is "Line 5:
missing Type" and the registry and the count are those before the line. -/
theorem loadCSV_line_without_separator_witness :
    loadCSVLine strtodModel
        { gm := GarageMonitor.empty.addDiagnostic "Car1" DiagnosticType.RPM 1000,
          errors := [], count := 1, lineNo := 4 }
        ("Car1 RPM 7" : String).data
      = { gm := GarageMonitor.empty.addDiagnostic "Car1" DiagnosticType.RPM 1000,
          errors := ["Line 5: missing Type"], count := 1, lineNo := 5 } :=
  (loadCSV_line_without_separator strtodModel
    { gm := GarageMonitor.empty.addDiagnostic "Car1" DiagnosticType.RPM 1000,
      errors := [], count := 1, lineNo := 4 }
    ("Car1 RPM 7" : String).data (by decide) (by decide)).2.1

/-! ## Sensor kinds from text -/

/-- The fields of an ingested row: the id is the trimmed first field, the kind is read
from the trimmed second field, and the value is what `strtod` reads in the trimmed third
field. -/
theorem parseLine_row_fields (strtod : String → StrtodResult) (lineNo : Nat) (line : String)
    (carId : String) (type : DiagnosticType) (val : ℚ)
    (h : parseLine strtod lineNo line = LineOutcome.row carId type val) :
    ∃ f1 r1 f2 r2, getline (trim line).data (Char.ofNat 44) = some (f1, r1)
      ∧ getline r1 (Char.ofNat 44) = some (f2, r2)
      ∧ carId = trim f1
      ∧ type = diagnosticTypeFromString (trim f2)
      ∧ val = (strtod (trim (match getline r2 (Char.ofNat 44) with
                              | none => ""
                              | some (v, _) => v))).val := by
  unfold parseLine at h
  dsimp only at h
  split at h
  · exact LineOutcome.noConfusion h
  · split at h
    · exact LineOutcome.noConfusion h
    · split at h
      · exact LineOutcome.noConfusion h
      · rename_i f1 r1 hg1
        split at h
        · exact LineOutcome.noConfusion h
        · rename_i f2 r2 hg2
          split at h
          · exact LineOutcome.noConfusion h
          · split at h
            · exact LineOutcome.noConfusion h
            · injection h with h1 h2 h3
              exact ⟨f1, r1, f2, r2, hg1, hg2, h1.symm, h2.symm, h3.symm⟩

/-- C13 (case and white space): `diagnosticTypeFromString s` depends only on `s` trimmed
and upper-cased; it is RPM, EngineLoad or CoolantTemp exactly when that text is "RPM",
"ENGINELOAD" or "COOLANTTEMP", and Unknown otherwise, so that "  rpm ", "RPM" and "Rpm"
all give RPM. `loadCSV` trims the id, type and value fields before it uses them: the line
"  CarZ ,   rpm , 2000  " has the outcome of the line "CarZ,RPM,2000" whatever `strtod`
does, and it is ingested as RPM 2000 of CarZ. -/
theorem diagnosticTypeFromString_normalised :
    (∀ s t : String, upper (trim s) = upper (trim t) →
        diagnosticTypeFromString s = diagnosticTypeFromString t)
    ∧ (∀ s : String,
        (diagnosticTypeFromString s = DiagnosticType.RPM ↔ upper (trim s) = "RPM")
        ∧ (diagnosticTypeFromString s = DiagnosticType.EngineLoad
            ↔ upper (trim s) = "ENGINELOAD")
        ∧ (diagnosticTypeFromString s = DiagnosticType.CoolantTemp
            ↔ upper (trim s) = "COOLANTTEMP")
        ∧ (diagnosticTypeFromString s = DiagnosticType.Unknown
            ↔ (upper (trim s) ≠ "RPM" ∧ upper (trim s) ≠ "ENGINELOAD"
                ∧ upper (trim s) ≠ "COOLANTTEMP")))
    ∧ (diagnosticTypeFromString "  rpm " = DiagnosticType.RPM
        ∧ diagnosticTypeFromString "RPM" = DiagnosticType.RPM
        ∧ diagnosticTypeFromString "Rpm" = DiagnosticType.RPM)
    ∧ (∀ (strtod : String → StrtodResult) (lineNo : Nat) (line carId : String)
          (type : DiagnosticType) (val : ℚ),
        parseLine strtod lineNo line = LineOutcome.row carId type val →
        ∃ f1 r1 f2 r2, getline (trim line).data (Char.ofNat 44) = some (f1, r1)
          ∧ getline r1 (Char.ofNat 44) = some (f2, r2)
          ∧ carId = trim f1
          ∧ type = diagnosticTypeFromString (trim f2)
          ∧ val = (strtod (trim (match getline r2 (Char.ofNat 44) with
                                  | none => ""
                                  | some (v, _) => v))).val)
    ∧ (∀ (strtod : String → StrtodResult) (lineNo : Nat),
        parseLine strtod lineNo "  CarZ ,   rpm , 2000  "
          = parseLine strtod lineNo "CarZ,RPM,2000")
    ∧ parseLine strtodModel 1 "  CarZ ,   rpm , 2000  "
        = LineOutcome.row "CarZ" DiagnosticType.RPM 2000 := by
  refine ⟨?_, ?_, ⟨by decide, by decide, by decide⟩, parseLine_row_fields, ?_, by decide!⟩
  · intro s t h
    unfold diagnosticTypeFromString
    simp only [h]
  · intro s
    unfold diagnosticTypeFromString
    dsimp only
    by_cases h1 : upper (trim s) = "RPM"
    · simp [h1]
    · by_cases h2 : upper (trim s) = "ENGINELOAD"
      · simp [h1, h2]
      · by_cases h3 : upper (trim s) = "COOLANTTEMP"
        · simp [h1, h2, h3]
        · simp [h1, h2, h3]
  · intro strtod lineNo
    rfl

/-! ## What the value check and the id check of `loadCSV` let through -/

/-- C14 (the code on a value with trailing characters): the test
`valueStr.empty() || endp == valueStr.c_str() || errno == ERANGE` only asks that `strtod`
consumed something, so the line "Car1,RPM,12abc" is ingested as RPM 12 of Car1 without
any error, by the model of `strtod` and by every `strtod` that reads the prefix "12"; the
empty value and the value "abc" are rejected with the invalid-value error, and the load
goes on after them. -/
theorem loadCSV_value_with_trailing_characters :
    parseLine strtodModel 1 "Car1,RPM,12abc" = LineOutcome.row "Car1" DiagnosticType.RPM 12
    ∧ (∀ (strtod : String → StrtodResult) (lineNo : Nat),
        strtod "12abc" = { val := 12, consumed := 2, erange := false } →
        parseLine strtod lineNo "Car1,RPM,12abc"
          = LineOutcome.row "Car1" DiagnosticType.RPM 12)
    ∧ (GarageMonitor.empty.loadCSV strtodModel "Car1,RPM,12abc\n" []).result = Except.ok 1
    ∧ (GarageMonitor.empty.loadCSV strtodModel "Car1,RPM,12abc\n" []).errors = []
    ∧ (GarageMonitor.empty.loadCSV strtodModel "Car1,RPM,12abc\n" []).gm.reading
        "Car1" DiagnosticType.RPM = some 12
    ∧ (GarageMonitor.empty.loadCSV strtodModel "Car1,RPM,\nCar1,RPM,abc\nCar1,RPM,7\n" []).errors
        = ["Line 1: invalid Value \x27\x27", "Line 2: invalid Value \x27abc\x27"]
    ∧ (GarageMonitor.empty.loadCSV strtodModel "Car1,RPM,\nCar1,RPM,abc\nCar1,RPM,7\n" []).gm
        = GarageMonitor.empty.addDiagnostic "Car1" DiagnosticType.RPM 7 := by
  have hrows : ingestedRows strtodModel 0 (splitLines ("Car1,RPM,12abc\n" : String).data)
      = [{ id_ := "Car1", type_ := DiagnosticType.RPM, value_ := 12 }] := by
    decide!
  refine ⟨by decide!, ?_, ?_, ?_, ?_, ?_, ?_⟩
  · intro strtod lineNo h
    have hp : parseLine strtod lineNo "Car1,RPM,12abc"
        = if ("12abc" : String).data.isEmpty || (strtod "12abc").consumed == 0
              || (strtod "12abc").erange
          then LineOutcome.error
            ("Line " ++ toString lineNo ++ ": invalid Value " ++ "\x27" ++ "12abc" ++ "\x27")
          else LineOutcome.row "Car1" DiagnosticType.RPM (strtod "12abc").val := rfl
    rw [hp, h]
    rfl
  · rw [loadCSV_result, hrows]
    rfl
  · rw [loadCSV_errors]
    decide!
  · rw [loadCSV_gm, hrows]
    decide!
  · rw [loadCSV_errors]
    decide!
  · rw [loadCSV_gm]
    decide!

/-- C16 (the code on a line without vehicle id): the first `getline` succeeds on every
line that is neither blank nor a comment, so the "missing CarId" branch is never taken;
the line ",RPM,100" is ingested without any error and creates a vehicle whose
identifier is the empty string. -/
theorem loadCSV_line_with_empty_id :
    (∀ line : List Char, isBlankOrComment line = false →
        ∃ f1 r1, getline (trim ⟨line⟩).data (Char.ofNat 44) = some (f1, r1))
    ∧ parseLine strtodModel 1 ",RPM,100" = LineOutcome.row "" DiagnosticType.RPM 100
    ∧ (∀ (strtod : String → StrtodResult) (lineNo : Nat),
        strtod "100" = { val := 100, consumed := 3, erange := false } →
        parseLine strtod lineNo ",RPM,100" = LineOutcome.row "" DiagnosticType.RPM 100)
    ∧ (GarageMonitor.empty.loadCSV strtodModel ",RPM,100\n" []).result = Except.ok 1
    ∧ (GarageMonitor.empty.loadCSV strtodModel ",RPM,100\n" []).errors = []
    ∧ (GarageMonitor.empty.loadCSV strtodModel ",RPM,100\n" []).gm.hasCar "" = true
    ∧ (GarageMonitor.empty.loadCSV strtodModel ",RPM,100\n" []).gm.reading
        "" DiagnosticType.RPM = some 100 := by
  have hrows : ingestedRows strtodModel 0 (splitLines (",RPM,100\n" : String).data)
      = [{ id_ := "", type_ := DiagnosticType.RPM, value_ := 100 }] := by
    decide!
  refine ⟨?_, by decide!, ?_, ?_, ?_, ?_, ?_⟩
  · intro line hline
    rcases trim_data_cases ⟨line⟩ with ⟨hd, _⟩ | ⟨x, t, u, hd, hx, ht⟩
    · simp only at hd
      simp [isBlankOrComment, hd] at hline
    · rw [ht]
      exact ⟨_, _, rfl⟩
  · intro strtod lineNo h
    have hp : parseLine strtod lineNo ",RPM,100"
        = if ("100" : String).data.isEmpty || (strtod "100").consumed == 0
              || (strtod "100").erange
          then LineOutcome.error
            ("Line " ++ toString lineNo ++ ": invalid Value " ++ "\x27" ++ "100" ++ "\x27")
          else LineOutcome.row "" DiagnosticType.RPM (strtod "100").val := rfl
    rw [hp, h]
    rfl
  · rw [loadCSV_result, hrows]
    rfl
  · rw [loadCSV_errors]
    decide!
  · rw [loadCSV_gm, hrows]
    decide!
  · rw [loadCSV_gm, hrows]
    decide!

/-- The outcome of a data line in terms of its fields: with a first and a second field,
the line is rejected for an unknown kind, then for a value that is empty, in which
`strtod` converts nothing, or that is out of range, and is ingested otherwise. -/
theorem parseLine_of_fields (strtod : String → StrtodResult) (lineNo : Nat)
    (line : List Char) (f1 : String) (r1 : List Char) (f2 : String) (r2 : List Char)
    (hline : isBlankOrComment line = false)
    (h1 : getline (trim ⟨line⟩).data (Char.ofNat 44) = some (f1, r1))
    (h2 : getline r1 (Char.ofNat 44) = some (f2, r2)) :
    parseLine strtod lineNo ⟨line⟩
      = if diagnosticTypeFromString (trim f2) = DiagnosticType.Unknown then
          LineOutcome.error
            ("Line " ++ toString lineNo ++ ": unknown Type " ++ "\x27" ++ trim f2 ++ "\x27")
        else if (trim (match getline r2 (Char.ofNat 44) with
                        | none => ""
                        | some (v, _) => v)).data.isEmpty
            || (strtod (trim (match getline r2 (Char.ofNat 44) with
                        | none => ""
                        | some (v, _) => v))).consumed == 0
            || (strtod (trim (match getline r2 (Char.ofNat 44) with
                        | none => ""
                        | some (v, _) => v))).erange then
          LineOutcome.error
            ("Line " ++ toString lineNo ++ ": invalid Value " ++ "\x27"
              ++ trim (match getline r2 (Char.ofNat 44) with
                        | none => ""
                        | some (v, _) => v) ++ "\x27")
        else LineOutcome.row (trim f1) (diagnosticTypeFromString (trim f2))
          (strtod (trim (match getline r2 (Char.ofNat 44) with
                        | none => ""
                        | some (v, _) => v))).val := by
  rcases trim_data_cases ⟨line⟩ with ⟨hd, _⟩ | ⟨x, t, u, hd, hx, ht⟩
  · simp only at hd
    simp [isBlankOrComment, hd] at hline
  · simp only at hd
    have hx35 : ¬ x = Char.ofNat 35 := by
      simpa [isBlankOrComment, hd] using hline
    unfold parseLine
    dsimp only
    rw [ht] at h1
    rw [ht]
    simp only [List.isEmpty_cons, List.head?_cons, Option.some.injEq, if_neg hx35, h1, h2,
      Bool.false_eq_true, if_false]

/-- C12 (the code on a partial failure): a row whose value is a number followed by
further characters is not a valid row, yet `loadCSV` counts and ingests it. On the input
of the rows RPM=1000 and RPM=12abc for Car1 the only valid row is the first; the code
returns count 2 with no error and leaves RPM 12 for Car1, which is not the registry of
the valid row alone (RPM 1000), by the model of `strtod` and by every `strtod` that reads
"1000" and the prefix "12". What holds for every line and every `strtod`: a data line
whose kind is unknown, or whose value is empty, has nothing that `strtod` converts, or is
out of range, only adds one message to the error list and changes neither the count nor
the registry. Rows RPM=1000, BadType, CoolantTemp=110 for Car1 give count 2, one error
and an incomplete Car1; a row with the value abc before a row RPM=900 gives count 1 and
one error. -/
theorem loadCSV_counts_row_with_trailing_characters :
    ((GarageMonitor.empty.loadCSV strtodModel "Car1,RPM,1000\nCar1,RPM,12abc\n" []).result
        = Except.ok 2
      ∧ (GarageMonitor.empty.loadCSV strtodModel "Car1,RPM,1000\nCar1,RPM,12abc\n" []).errors
        = []
      ∧ (GarageMonitor.empty.loadCSV strtodModel "Car1,RPM,1000\nCar1,RPM,12abc\n" []).gm.reading
          "Car1" DiagnosticType.RPM = some 12
      ∧ (ingestAll GarageMonitor.empty
          [{ id_ := "Car1", type_ := DiagnosticType.RPM, value_ := 1000 }]).reading
          "Car1" DiagnosticType.RPM = some 1000
      ∧ (GarageMonitor.empty.loadCSV strtodModel "Car1,RPM,1000\nCar1,RPM,12abc\n" []).gm
        ≠ ingestAll GarageMonitor.empty
            [{ id_ := "Car1", type_ := DiagnosticType.RPM, value_ := 1000 }])
    ∧ (∀ strtod : String → StrtodResult,
        strtod "1000" = { val := 1000, consumed := 4, erange := false } →
        strtod "12abc" = { val := 12, consumed := 2, erange := false } →
        (GarageMonitor.empty.loadCSV strtod "Car1,RPM,1000\nCar1,RPM,12abc\n" []).result
          = Except.ok 2
        ∧ (GarageMonitor.empty.loadCSV strtod "Car1,RPM,1000\nCar1,RPM,12abc\n" []).errors = []
        ∧ (GarageMonitor.empty.loadCSV strtod "Car1,RPM,1000\nCar1,RPM,12abc\n" []).gm
          = ingestAll GarageMonitor.empty
              [{ id_ := "Car1", type_ := DiagnosticType.RPM, value_ := 1000 },
               { id_ := "Car1", type_ := DiagnosticType.RPM, value_ := 12 }])
    ∧ (∀ (strtod : String → StrtodResult) (st : LoadState) (line : List Char)
          (f1 : String) (r1 : List Char) (f2 : String) (r2 : List Char),
        isBlankOrComment line = false →
        getline (trim ⟨line⟩).data (Char.ofNat 44) = some (f1, r1) →
        getline r1 (Char.ofNat 44) = some (f2, r2) →
        (diagnosticTypeFromString (trim f2) = DiagnosticType.Unknown
          ∨ (trim (match getline r2 (Char.ofNat 44) with
                    | none => ""
                    | some (v, _) => v)).data = []
          ∨ (strtod (trim (match getline r2 (Char.ofNat 44) with
                    | none => ""
                    | some (v, _) => v))).consumed = 0
          ∨ (strtod (trim (match getline r2 (Char.ofNat 44) with
                    | none => ""
                    | some (v, _) => v))).erange = true) →
        (loadCSVLine strtod st line).gm = st.gm
        ∧ (loadCSVLine strtod st line).count = st.count
        ∧ ∃ msg, (loadCSVLine strtod st line).errors = st.errors ++ [msg])
    ∧ ((GarageMonitor.empty.loadCSV strtodModel
          "Car1, RPM, 1000\nCar1, BadType, 10\nCar1, CoolantTemp, 110\n" []).result
          = Except.ok 2
        ∧ (GarageMonitor.empty.loadCSV strtodModel
          "Car1, RPM, 1000\nCar1, BadType, 10\nCar1, CoolantTemp, 110\n" []).errors
          = ["Line 2: unknown Type \x27BadType\x27"]
        ∧ (GarageMonitor.empty.loadCSV strtodModel
          "Car1, RPM, 1000\nCar1, BadType, 10\nCar1, CoolantTemp, 110\n" []).gm
          = ingestAll GarageMonitor.empty
              [{ id_ := "Car1", type_ := DiagnosticType.RPM, value_ := 1000 },
               { id_ := "Car1", type_ := DiagnosticType.CoolantTemp, value_ := 110 }]
        ∧ (GarageMonitor.empty.loadCSV strtodModel
          "Car1, RPM, 1000\nCar1, BadType, 10\nCar1, CoolantTemp, 110\n" []).gm.statusOf "Car1"
          = { hasAll := false, score := none, alert := "Sensor Failure Detected" })
    ∧ ((GarageMonitor.empty.loadCSV strtodModel "Car1, RPM, abc\nCar1, RPM, 900\n" []).result
          = Except.ok 1
        ∧ (GarageMonitor.empty.loadCSV strtodModel "Car1, RPM, abc\nCar1, RPM, 900\n" []).errors
          = ["Line 1: invalid Value \x27abc\x27"]
        ∧ (GarageMonitor.empty.loadCSV strtodModel "Car1, RPM, abc\nCar1, RPM, 900\n" []).gm
          = ingestAll GarageMonitor.empty
              [{ id_ := "Car1", type_ := DiagnosticType.RPM, value_ := 900 }]) := by
  have hrows : ingestedRows strtodModel 0
      (splitLines ("Car1,RPM,1000\nCar1,RPM,12abc\n" : String).data)
      = [{ id_ := "Car1", type_ := DiagnosticType.RPM, value_ := 1000 },
         { id_ := "Car1", type_ := DiagnosticType.RPM, value_ := 12 }] := by
    decide!
  have hrows6 : ingestedRows strtodModel 0
      (splitLines ("Car1, RPM, 1000\nCar1, BadType, 10\nCar1, CoolantTemp, 110\n" : String).data)
      = [{ id_ := "Car1", type_ := DiagnosticType.RPM, value_ := 1000 },
         { id_ := "Car1", type_ := DiagnosticType.CoolantTemp, value_ := 110 }] := by
    decide!
  have hrej6 : rejectedLines strtodModel 0
      (splitLines ("Car1, RPM, 1000\nCar1, BadType, 10\nCar1, CoolantTemp, 110\n" : String).data)
      = [(2, "Line 2: unknown Type \x27BadType\x27")] := by
    decide!
  have hrows7 : ingestedRows strtodModel 0
      (splitLines ("Car1, RPM, abc\nCar1, RPM, 900\n" : String).data)
      = [{ id_ := "Car1", type_ := DiagnosticType.RPM, value_ := 900 }] := by
    decide!
  have hrej7 : rejectedLines strtodModel 0
      (splitLines ("Car1, RPM, abc\nCar1, RPM, 900\n" : String).data)
      = [(1, "Line 1: invalid Value \x27abc\x27")] := by
    decide!
  refine ⟨⟨?_, ?_, ?_, by decide!, ?_⟩, ?_, ?_, ⟨?_, ?_, ?_, ?_⟩, ⟨?_, ?_, ?_⟩⟩
  · rw [loadCSV_result, hrows]
    rfl
  · rw [loadCSV_errors]
    decide!
  · rw [loadCSV_gm, hrows]
    decide!
  · rw [loadCSV_gm, hrows]
    decide!
  · intro strtod h1 h2
    have hp1 : parseLine strtod (0 + 1) ⟨("Car1,RPM,1000" : String).data⟩
        = LineOutcome.row "Car1" DiagnosticType.RPM 1000 := by
      have hp : parseLine strtod (0 + 1) ⟨("Car1,RPM,1000" : String).data⟩
          = if ("1000" : String).data.isEmpty || (strtod "1000").consumed == 0
                || (strtod "1000").erange
            then LineOutcome.error
              ("Line " ++ toString (0 + 1) ++ ": invalid Value " ++ "\x27" ++ "1000" ++ "\x27")
            else LineOutcome.row "Car1" DiagnosticType.RPM (strtod "1000").val := rfl
      rw [hp, h1]
      rfl
    have hp2 : parseLine strtod (0 + 1 + 1) ⟨("Car1,RPM,12abc" : String).data⟩
        = LineOutcome.row "Car1" DiagnosticType.RPM 12 := by
      have hp : parseLine strtod (0 + 1 + 1) ⟨("Car1,RPM,12abc" : String).data⟩
          = if ("12abc" : String).data.isEmpty || (strtod "12abc").consumed == 0
                || (strtod "12abc").erange
            then LineOutcome.error
              ("Line " ++ toString (0 + 1 + 1) ++ ": invalid Value " ++ "\x27" ++ "12abc"
                ++ "\x27")
            else LineOutcome.row "Car1" DiagnosticType.RPM (strtod "12abc").val := rfl
      rw [hp, h2]
      rfl
    have hs : splitLines ("Car1,RPM,1000\nCar1,RPM,12abc\n" : String).data
        = [("Car1,RPM,1000" : String).data, ("Car1,RPM,12abc" : String).data] := by
      decide
    have hr : ingestedRows strtod 0
        (splitLines ("Car1,RPM,1000\nCar1,RPM,12abc\n" : String).data)
        = [{ id_ := "Car1", type_ := DiagnosticType.RPM, value_ := 1000 },
           { id_ := "Car1", type_ := DiagnosticType.RPM, value_ := 12 }] := by
      rw [hs]
      simp only [ingestedRows, hp1, hp2]
    have hj : rejectedLines strtod 0
        (splitLines ("Car1,RPM,1000\nCar1,RPM,12abc\n" : String).data) = [] := by
      rw [hs]
      simp only [rejectedLines, hp1, hp2]
    refine ⟨?_, ?_, ?_⟩
    · rw [loadCSV_result, hr]
      rfl
    · rw [loadCSV_errors, hj]
      rfl
    · rw [loadCSV_gm, hr]
  · intro strtod st line f1 r1 f2 r2 hline h1 h2 hbad
    have hp := parseLine_of_fields strtod (st.lineNo + 1) line f1 r1 f2 r2 hline h1 h2
    by_cases ht : diagnosticTypeFromString (trim f2) = DiagnosticType.Unknown
    · rw [if_pos ht] at hp
      rw [loadCSVLine_of_error strtod st line _ hp]
      exact ⟨rfl, rfl, _, rfl⟩
    · have hv : ((trim (match getline r2 (Char.ofNat 44) with
                    | none => ""
                    | some (v, _) => v)).data.isEmpty
            || (strtod (trim (match getline r2 (Char.ofNat 44) with
                    | none => ""
                    | some (v, _) => v))).consumed == 0
            || (strtod (trim (match getline r2 (Char.ofNat 44) with
                    | none => ""
                    | some (v, _) => v))).erange) = true := by
        rcases hbad with h | h | h | h
        · exact absurd h ht
        · simp [h]
        · simp [h]
        · simp [h]
      rw [if_neg ht, if_pos hv] at hp
      rw [loadCSVLine_of_error strtod st line _ hp]
      exact ⟨rfl, rfl, _, rfl⟩
  · rw [loadCSV_result, hrows6]
    rfl
  · rw [loadCSV_errors, hrej6]
    rfl
  · rw [loadCSV_gm, hrows6]
  · rw [loadCSV_gm, hrows6]
    decide!
  · rw [loadCSV_result, hrows7]
    rfl
  · rw [loadCSV_errors, hrej7]
    rfl
  · rw [loadCSV_gm, hrows7]

/-! ## Ingests on different vehicles commute -/

/-- A key found in the map is the key of one of its entries. -/
theorem mem_of_mapFind (l : List (String × Car)) (k : String) (c : Car)
    (h : mapFind l k = some c) : (k, c) ∈ l := by
  induction l with
  | nil => simp [mapFind] at h
  | cons kv rest ih =>
    obtain ⟨k0, c0⟩ := kv
    by_cases hk : k0 = k
    · simp only [mapFind, if_pos hk, Option.some.injEq] at h
      subst hk h
      exact List.mem_cons_self _ _
    · simp only [mapFind, if_neg hk] at h
      exact List.mem_cons_of_mem _ (ih h)

/-- Two maps in key order with the same answers to `find` are the same map. -/
theorem map_ext (l1 l2 : List (String × Car))
    (h1 : l1.Pairwise (fun a b => a.1 < b.1)) (h2 : l2.Pairwise (fun a b => a.1 < b.1))
    (h : ∀ k, mapFind l1 k = mapFind l2 k) : l1 = l2 := by
  induction l1 generalizing l2 with
  | nil =>
    cases l2 with
    | nil => rfl
    | cons kv rest =>
      have := h kv.1
      simp [mapFind] at this
  | cons kv1 rest1 ih =>
    obtain ⟨k1, c1⟩ := kv1
    cases l2 with
    | nil =>
      have := h k1
      simp [mapFind] at this
    | cons kv2 rest2 =>
      obtain ⟨k2, c2⟩ := kv2
      have hp1 := List.pairwise_cons.mp h1
      have hp2 := List.pairwise_cons.mp h2
      have hk : k1 = k2 := by
        by_contra hne
        have hne' : ¬ k2 = k1 := fun e => hne e.symm
        have e1 := h k1
        simp only [mapFind, if_true, if_neg hne'] at e1
        have e2 := h k2
        simp only [mapFind, if_true, if_neg hne] at e2
        have lt1 := hp2.1 (k1, c1) (mem_of_mapFind rest2 k1 c1 e1.symm)
        have lt2 := hp1.1 (k2, c2) (mem_of_mapFind rest1 k2 c2 e2)
        exact lt_asymm lt1 lt2
      subst hk
      have hc : c1 = c2 := by
        have e1 := h k1
        simpa [mapFind] using e1
      subst hc
      have hnone : ∀ (rest : List (String × Car)),
          (∀ a ∈ rest, k1 < a.1) → mapFind rest k1 = none := by
        intro rest hrest
        cases hf : mapFind rest k1 with
        | none => rfl
        | some c => exact absurd (hrest _ (mem_of_mapFind rest k1 c hf)) (lt_irrefl _)
      have htail : ∀ k, mapFind rest1 k = mapFind rest2 k := by
        intro k
        by_cases hk : k1 = k
        · subst hk
          rw [hnone rest1 hp1.1, hnone rest2 hp2.1]
        · have e := h k
          simpa only [mapFind, if_neg hk] using e
      rw [ih rest2 hp1.2 hp2.2 htail]

/-- C18 (order-independence across vehicles): for every registry state and every two
ingests `addDiagnostic id1 k1 v1` and `addDiagnostic id2 k2 v2` on different ids,
applying them in either order yields the same registry state: the same vehicles with
the same readings. -/
theorem addDiagnostic_comm (m : GarageMonitor) (hm : m.WF) (id1 id2 : String)
    (k1 k2 : DiagnosticType) (v1 v2 : ℚ) (hne : id1 ≠ id2) :
    (m.addDiagnostic id1 k1 v1).addDiagnostic id2 k2 v2
      = (m.addDiagnostic id2 k2 v2).addDiagnostic id1 k1 v1 := by
  have hwf1 := addDiagnostic_WF _ id2 k2 v2 (addDiagnostic_WF m id1 k1 v1 hm)
  have hwf2 := addDiagnostic_WF _ id1 k1 v1 (addDiagnostic_WF m id2 k2 v2 hm)
  have hcars : ((m.addDiagnostic id1 k1 v1).addDiagnostic id2 k2 v2).cars_
      = ((m.addDiagnostic id2 k2 v2).addDiagnostic id1 k1 v1).cars_ := by
    apply map_ext _ _ hwf1 hwf2
    intro k
    by_cases h2 : k = id2
    · subst h2
      rw [mapFind_addDiagnostic_self, mapFind_addDiagnostic_ne _ _ _ _ _ (Ne.symm hne),
        mapFind_addDiagnostic_ne _ _ _ _ _ (Ne.symm hne), mapFind_addDiagnostic_self]
    · by_cases h1 : k = id1
      · subst h1
        rw [mapFind_addDiagnostic_ne _ _ _ _ _ h2, mapFind_addDiagnostic_self,
          mapFind_addDiagnostic_self, mapFind_addDiagnostic_ne _ _ _ _ _ h2]
      · rw [mapFind_addDiagnostic_ne _ _ _ _ _ h2, mapFind_addDiagnostic_ne _ _ _ _ _ h1,
          mapFind_addDiagnostic_ne _ _ _ _ _ h1, mapFind_addDiagnostic_ne _ _ _ _ _ h2]
  cases hx : (m.addDiagnostic id1 k1 v1).addDiagnostic id2 k2 v2 with
  | mk carsA =>
    cases hy : (m.addDiagnostic id2 k2 v2).addDiagnostic id1 k1 v1 with
    | mk carsB =>
      rw [hx, hy] at hcars
      simp only at hcars
      rw [hcars]

/-- On a registry that holds CarB: an RPM write to CarC and a CoolantTemp write to CarA
give the registry CarA, CarB, CarC in either order. -/
theorem addDiagnostic_comm_witness :
    ((GarageMonitor.empty.addDiagnostic "CarB" DiagnosticType.RPM 900).addDiagnostic
        "CarC" DiagnosticType.RPM 3000).addDiagnostic "CarA" DiagnosticType.CoolantTemp 95
      = ((GarageMonitor.empty.addDiagnostic "CarB" DiagnosticType.RPM 900).addDiagnostic
        "CarA" DiagnosticType.CoolantTemp 95).addDiagnostic "CarC" DiagnosticType.RPM 3000 :=
  addDiagnostic_comm (GarageMonitor.empty.addDiagnostic "CarB" DiagnosticType.RPM 900)
    (addDiagnostic_WF _ _ _ _ empty_WF) "CarC" "CarA" DiagnosticType.RPM
    DiagnosticType.CoolantTemp 3000 95 (by decide)

/-! ## Workload generator, sequential mode -/

/-- The score of a status is present exactly when the car is complete. -/
theorem statusOfUnlocked_score_isSome (car : Car) :
    (GarageMonitor.statusOfUnlocked car).score.isSome = car.hasAllRequired := by
  cases hall : car.hasAllRequired with
  | false => rw [statusOfUnlocked_incomplete car hall]; rfl
  | true =>
    obtain ⟨s, hs⟩ := computePerformanceScore_isSome car hall
    rw [statusOfUnlocked_complete car s hall hs]
    rfl

/-- The alert of a status is the sensor-failure alert exactly when the car is
incomplete. -/
theorem statusOfUnlocked_alert_failure (car : Car) :
    (GarageMonitor.statusOfUnlocked car).alert = "Sensor Failure Detected"
      ↔ car.hasAllRequired = false := by
  cases hall : car.hasAllRequired with
  | false => rw [statusOfUnlocked_incomplete car hall]; simp
  | true =>
    obtain ⟨s, hs⟩ := computePerformanceScore_isSome car hall
    rw [statusOfUnlocked_complete car s hall hs]
    by_cases h40 : s < 40
    · simp only [if_pos h40, Bool.true_eq_false, iff_false]
      decide
    · simp only [if_neg h40, Bool.true_eq_false, iff_false]
      decide

/-- The loop of `printStatus` never dereferences an empty score: from any text written so
far it goes on to a text. -/
theorem foldl_printStatus_isSome (fixed2 : ℚ → String) (l : List (String × Car))
    (text : String) :
    ∃ out, l.foldl
      (fun out kv =>
        match out with
        | none => none
        | some text =>
          let st := GarageMonitor.statusOfUnlocked kv.2
          let text := text ++ "Car: " ++ kv.1
          if !st.hasAll then some (text ++ " | Status: " ++ st.alert ++ "\n")
          else
            match st.score with
            | none => none
            | some sc =>
              let text := text ++ " | Score: " ++ fixed2 sc
              let text := if st.alert ≠ "" then text ++ " | Alert: " ++ st.alert else text
              some (text ++ "\n"))
      (some text) = some out := by
  induction l generalizing text with
  | nil => exact ⟨text, rfl⟩
  | cons kv rest ih =>
    rw [List.foldl_cons]
    cases hall : kv.2.hasAllRequired with
    | false =>
      simp only [statusOfUnlocked_incomplete kv.2 hall, Bool.not_false, if_true]
      exact ih _
    | true =>
      obtain ⟨s, hs⟩ := computePerformanceScore_isSome kv.2 hall
      simp only [statusOfUnlocked_complete kv.2 s hall hs, Bool.not_true, Bool.false_eq_true,
        if_false]
      exact ih _

/-- C21 (status well-formedness): for every registry and every id, known or unknown, the
status returned by `statusOf` has a score if and only if `hasAll` is true; its alert is
"Sensor Failure Detected" if and only if the vehicle exists and is incomplete; and its
alert is "Severe Engine Stress" only when `hasAll` is true. Hence `printStatus`, which
dereferences the score only when `hasAll` is true, never reads an absent value: it
always produces its text. -/
theorem statusOf_well_formed :
    (∀ (m : GarageMonitor) (id : String),
      ((m.statusOf id).score.isSome = true ↔ (m.statusOf id).hasAll = true)
      ∧ ((m.statusOf id).alert = "Sensor Failure Detected"
          ↔ ∃ car, mapFind m.cars_ id = some car ∧ car.hasAllRequired = false)
      ∧ ((m.statusOf id).alert = "Severe Engine Stress" → (m.statusOf id).hasAll = true))
    ∧ (∀ car : Car,
        (GarageMonitor.statusOfUnlocked car).hasAll = true →
          ∃ s, (GarageMonitor.statusOfUnlocked car).score = some s)
    ∧ (∀ (fixed2 : ℚ → String) (m : GarageMonitor), ∃ text, m.printStatus fixed2 = some text) := by
  refine ⟨?_, ?_, ?_⟩
  · intro m id
    unfold GarageMonitor.statusOf
    cases hf : mapFind m.cars_ id with
    | none =>
      refine ⟨by simp, ?_, ?_⟩
      · simp only [reduceCtorEq, false_and, exists_false, iff_false]
        decide
      · intro h
        exact absurd h (by decide)
    | some car =>
      refine ⟨?_, ?_, ?_⟩
      · simp only [statusOfUnlocked_score_isSome, statusOfUnlocked_hasAll]
      · simp only [statusOfUnlocked_alert_failure, Option.some.injEq, exists_eq_left']
      · intro h
        simp only [statusOfUnlocked_hasAll]
        cases hall : car.hasAllRequired with
        | true => rfl
        | false =>
          simp only [statusOfUnlocked_incomplete car hall] at h
          exact absurd h (by decide)
  · intro car h
    rw [statusOfUnlocked_hasAll] at h
    obtain ⟨s, hs⟩ := computePerformanceScore_isSome car h
    exact ⟨s, by rw [statusOfUnlocked_complete car s h hs]⟩
  · intro fixed2 m
    exact foldl_printStatus_isSome fixed2 m.cars_ ""

/-! ## A bulk load that throws -/

/-- C22 (atomicity of a failed bulk load): for every registry state and every input on
which `loadCSV` throws, the vehicle map after the call is the map before it, so that no
vehicle is created and no reading is changed; only the caller's error list may have
grown, by the messages of the rejected lines. -/
theorem loadCSV_throw_keeps_map (strtod : String → StrtodResult) (m : GarageMonitor)
    (input : String) (errors : List String) (what : String)
    (hthrow : (m.loadCSV strtod input errors).result = Except.error what) :
    (m.loadCSV strtod input errors).gm = m
    ∧ (∀ id, (m.loadCSV strtod input errors).gm.hasCar id = m.hasCar id)
    ∧ (∀ id k, (m.loadCSV strtod input errors).gm.reading id k = m.reading id k)
    ∧ ∃ more, (m.loadCSV strtod input errors).errors = errors ++ more := by
  have hrows : ingestedRows strtod 0 (splitLines input.data) = [] := by
    rw [loadCSV_result] at hthrow
    split at hthrow
    · rename_i h0
      exact List.length_eq_zero.mp h0
    · exact Except.noConfusion hthrow
  have hgm : (m.loadCSV strtod input errors).gm = m := by
    rw [loadCSV_gm, hrows]
    rfl
  refine ⟨hgm, ?_, ?_, _, loadCSV_errors strtod m input errors⟩
  · intro id
    rw [hgm]
  · intro id k
    rw [hgm]

/-- A load of one comment and one row of unknown type into a registry that holds Car1:
it throws, the registry is the one before, and the error list has the one message. -/
theorem loadCSV_throw_keeps_map_witness :
    ((GarageMonitor.empty.addDiagnostic "Car1" DiagnosticType.RPM 1000).loadCSV strtodModel
        "# fleet\nCar2,Speed,5\n" []).result = Except.error "Empty CSV: no valid data rows."
    ∧ ((GarageMonitor.empty.addDiagnostic "Car1" DiagnosticType.RPM 1000).loadCSV strtodModel
        "# fleet\nCar2,Speed,5\n" []).gm
      = GarageMonitor.empty.addDiagnostic "Car1" DiagnosticType.RPM 1000
    ∧ ((GarageMonitor.empty.addDiagnostic "Car1" DiagnosticType.RPM 1000).loadCSV strtodModel
        "# fleet\nCar2,Speed,5\n" []).errors = ["Line 2: unknown Type \x27Speed\x27"] :=
  have hthrow : ((GarageMonitor.empty.addDiagnostic "Car1" DiagnosticType.RPM 1000).loadCSV
      strtodModel "# fleet\nCar2,Speed,5\n" []).result
      = Except.error "Empty CSV: no valid data rows." := by
    rw [loadCSV_result]
    rfl
  ⟨hthrow,
   (loadCSV_throw_keeps_map strtodModel
      (GarageMonitor.empty.addDiagnostic "Car1" DiagnosticType.RPM 1000)
      "# fleet\nCar2,Speed,5\n" [] "Empty CSV: no valid data rows." hthrow).1,
   by rw [loadCSV_errors]; decide!⟩

/-! ## Ingesting the sentinel kind -/

/-- An update of an entry by a function that changes no car changes nothing. -/
theorem mapModify_of_id (l : List (String × Car)) (k : String) (f : Car → Car)
    (hf : ∀ c, f c = c) : mapModify l k f = l := by
  induction l with
  | nil => rfl
  | cons kv rest ih =>
    obtain ⟨k0, c0⟩ := kv
    by_cases h : k0 = k
    · simp only [mapModify, if_pos h, hf]
    · simp only [mapModify, if_neg h, ih]

/-- C23 (ingesting the sentinel kind directly): for every registry, id and value,
`addDiagnostic(id, Unknown, value)` changes no reading of any vehicle and no other
vehicle; when `id` was already present the registry is unchanged, and when `id` was
unseen a vehicle with no readings is created; afterwards `hasCar(id)` is true, and for
the unseen id `statusOf(id)` reports `hasAll = false` with the alert "Sensor Failure
Detected". -/
theorem addDiagnostic_unknown_kind :
    ∀ (m : GarageMonitor) (id : String) (value : ℚ),
      (∀ id' k, (m.addDiagnostic id DiagnosticType.Unknown value).reading id' k
          = m.reading id' k)
      ∧ (∀ id', id' ≠ id →
          mapFind (m.addDiagnostic id DiagnosticType.Unknown value).cars_ id'
            = mapFind m.cars_ id')
      ∧ (m.hasCar id = true → m.addDiagnostic id DiagnosticType.Unknown value = m)
      ∧ (m.hasCar id = false →
          mapFind (m.addDiagnostic id DiagnosticType.Unknown value).cars_ id
              = some (Car.new id)
          ∧ (m.addDiagnostic id DiagnosticType.Unknown value).statusOf id
              = { hasAll := false, score := none, alert := "Sensor Failure Detected" })
      ∧ (m.addDiagnostic id DiagnosticType.Unknown value).hasCar id = true := by
  intro m id value
  have hself := mapFind_addDiagnostic_self m id DiagnosticType.Unknown value
  have hcar : ∀ c : Car,
      c.addDiagnostic { id_ := id, type_ := DiagnosticType.Unknown, value_ := value } = c :=
    fun _ => rfl
  refine ⟨?_, ?_, ?_, ?_, ?_⟩
  · intro id' k
    by_cases hk : k = DiagnosticType.Unknown
    · subst hk
      rw [reading_unknown, reading_unknown]
    · rw [reading_addDiagnostic _ _ _ _ _ _ hk]
      have hne : ¬ (id = id' ∧ DiagnosticType.Unknown = k) := fun h => hk h.2.symm
      rw [if_neg hne]
  · intro id' hne
    exact mapFind_addDiagnostic_ne m id id' _ value hne
  · intro hhas
    unfold GarageMonitor.hasCar at hhas
    unfold GarageMonitor.addDiagnostic
    cases hf : mapFind m.cars_ id with
    | none => rw [hf] at hhas; exact Bool.noConfusion hhas
    | some c =>
      simp only [mapModify_of_id _ _ _ hcar]
  · intro hhas
    have hnone : mapFind m.cars_ id = none := by
      unfold GarageMonitor.hasCar at hhas
      cases hf : mapFind m.cars_ id with
      | none => rfl
      | some c => rw [hf] at hhas; exact Bool.noConfusion hhas
    have hfind : mapFind (m.addDiagnostic id DiagnosticType.Unknown value).cars_ id
        = some (Car.new id) := by
      rw [hself, hnone, Option.getD_none, hcar]
    refine ⟨hfind, ?_⟩
    unfold GarageMonitor.statusOf
    rw [hfind]
    exact statusOfUnlocked_incomplete (Car.new id) rfl
  · rw [hasCar_addDiagnostic]
    exact Or.inl rfl

end GarageSpec
